import Mathlib

/-!
# chux-crosscut: logging composite, facade, CloudWatch sink and secrets accessor

A shallow embedding of `logging/loggerCompose.go`, `logging/loggerFacade.go`,
`logging/cloudWatchLogger.go` and `secrets/secrets.go`.

Side effects are modelled by explicit state passing: a method with receiver `l`
that Go writes `l.Debug(msg, args...)` becomes a function `σ → σ` on a world
state `σ`, and a method returning `error` becomes `σ → Option GoError × σ`
(`none` is Go's `nil`).
-/

namespace Crosscut

/-! ## Go values -/

/-- A Go `error` value, identified with the text of its `Error()` method;
`Option GoError` is a possibly-nil `error`. -/
abbrev GoError := String

/-- A value passed in an `args ...interface{}` list. -/
inductive GoValue where
  | str (s : String)
  | int (i : Int)
  | bool (b : Bool)
deriving DecidableEq

/-- The four logging operations of the interface. -/
inductive Severity where
  | Debug
  | Info
  | Warn
  | Error
deriving DecidableEq

/-! ## The logger interface -/

/-- Modelled from the spec: the declaration of the `ILogger` interface is not among the
sources. The spec (section 9) gives it as the capability set
{Debug, Info, Warn, Error, Close}; the signatures are the ones its users rely on:
`logger.Debug(msg, args...)` is a statement call in `loggerCompose.go`, and
`err := logger.Close()` there is compared with `nil` and appended to an `[]error`. -/
structure ILogger (σ : Type) where
  Debug : String → List GoValue → σ → σ
  Info : String → List GoValue → σ → σ
  Warn : String → List GoValue → σ → σ
  Error : String → List GoValue → σ → σ
  Close : σ → Option GoError × σ

/-- The logging method of an `ILogger` selected by a severity. -/
def ILogger.emit {σ : Type} (l : ILogger σ) : Severity → String → List GoValue → σ → σ
  | .Debug => l.Debug
  | .Info => l.Info
  | .Warn => l.Warn
  | .Error => l.Error

/-! ## `loggerCompose.go` -/

/-- `type LoggerComposition struct { loggers []ILogger }`. -/
structure LoggerComposition (σ : Type) where
  loggers : List (ILogger σ)

/-- `func (lc *LoggerComposition) Debug`: `for _, logger := range lc.loggers { logger.Debug(msg, args...) }`. -/
def LoggerComposition.Debug {σ : Type} (lc : LoggerComposition σ) (msg : String)
    (args : List GoValue) (w : σ) : σ :=
  lc.loggers.foldl (fun w logger => logger.Debug msg args w) w

/-- `func (lc *LoggerComposition) Info`. -/
def LoggerComposition.Info {σ : Type} (lc : LoggerComposition σ) (msg : String)
    (args : List GoValue) (w : σ) : σ :=
  lc.loggers.foldl (fun w logger => logger.Info msg args w) w

/-- `func (lc *LoggerComposition) Warn`. -/
def LoggerComposition.Warn {σ : Type} (lc : LoggerComposition σ) (msg : String)
    (args : List GoValue) (w : σ) : σ :=
  lc.loggers.foldl (fun w logger => logger.Warn msg args w) w

/-- `func (lc *LoggerComposition) Error`. -/
def LoggerComposition.Error {σ : Type} (lc : LoggerComposition σ) (msg : String)
    (args : List GoValue) (w : σ) : σ :=
  lc.loggers.foldl (fun w logger => logger.Error msg args w) w

/-- `%v` of an `[]error` as `fmt` prints it: the elements' `Error()` texts,
space separated, in square brackets. -/
def fmtErrorSlice (errs : List GoError) : String :=
  "[" ++ " ".intercalate errs ++ "]"

/-- The body of the `for _, logger := range lc.loggers` loop of `Close`, for one member:
`err := logger.Close(); if err != nil { errs = append(errs, err) }`. -/
def LoggerComposition.closeOne {σ : Type} (acc : List GoError × σ) (logger : ILogger σ) :
    List GoError × σ :=
  match logger.Close acc.2 with
  | (some err, w) => (acc.1 ++ [err], w)
  | (none, w) => (acc.1, w)

/-- `func (lc *LoggerComposition) Close() error`. -/
def LoggerComposition.Close {σ : Type} (lc : LoggerComposition σ) (w : σ) : Option GoError × σ :=
  let r := lc.loggers.foldl LoggerComposition.closeOne ([], w)
  if r.1.length > 0 then
    (some ("error closing loggers: " ++ fmtErrorSlice r.1), r.2)
  else
    (none, r.2)

/-- `func NewLoggerComposition(loggers ...ILogger) ILogger`: the composition, seen through
the interface. The slice is stored as given. -/
def NewLoggerComposition {σ : Type} (loggers : List (ILogger σ)) : ILogger σ :=
  let lc : LoggerComposition σ := { loggers := loggers }
  { Debug := lc.Debug, Info := lc.Info, Warn := lc.Warn, Error := lc.Error, Close := lc.Close }

/-! ## `loggerFacade.go`: the delegating methods -/

/-- `type LoggerFacade struct { logger ILogger }`. -/
structure LoggerFacade (σ : Type) where
  logger : ILogger σ

/-- `func (lf *LoggerFacade) Debug`. -/
def LoggerFacade.Debug {σ : Type} (lf : LoggerFacade σ) (msg : String) (args : List GoValue)
    (w : σ) : σ :=
  lf.logger.Debug msg args w

/-- `func (lf *LoggerFacade) Info`. -/
def LoggerFacade.Info {σ : Type} (lf : LoggerFacade σ) (msg : String) (args : List GoValue)
    (w : σ) : σ :=
  lf.logger.Info msg args w

/-- `func (lf *LoggerFacade) Warn`. -/
def LoggerFacade.Warn {σ : Type} (lf : LoggerFacade σ) (msg : String) (args : List GoValue)
    (w : σ) : σ :=
  lf.logger.Warn msg args w

/-- `func (lf *LoggerFacade) Error`. -/
def LoggerFacade.Error {σ : Type} (lf : LoggerFacade σ) (msg : String) (args : List GoValue)
    (w : σ) : σ :=
  lf.logger.Error msg args w

/-- `func (lf *LoggerFacade) Close() { lf.logger.Close() }`: the method has no result; the
value returned by the delegate is discarded. -/
def LoggerFacade.Close {σ : Type} (lf : LoggerFacade σ) (w : σ) : σ :=
  (lf.logger.Close w).2

/-! ## Method sets -/

/-- The Go types occurring in the signatures of the logging methods. -/
inductive GoType where
  | string
  | variadicInterface
  | error
deriving DecidableEq

/-- A method signature: name, parameter types, result types. -/
structure MethodSig where
  name : String
  params : List GoType
  results : List GoType
deriving DecidableEq

/-- Signature `name(msg string, args ...interface{})`. -/
def logMethod (name : String) : MethodSig :=
  { name := name, params := [.string, .variadicInterface], results := [] }

/-- Modelled from the spec: the method set of the absent `ILogger` declaration, as above:
four logging methods without result and `Close() error`. -/
def ILogger.methodSet : List MethodSig :=
  [logMethod "Debug", logMethod "Info", logMethod "Warn", logMethod "Error",
   { name := "Close", params := [], results := [.error] }]

/-- The methods declared on `*LoggerComposition` in `loggerCompose.go`. -/
def LoggerComposition.methodSet : List MethodSig :=
  [logMethod "Debug", logMethod "Info", logMethod "Warn", logMethod "Error",
   { name := "Close", params := [], results := [.error] }]

/-- The methods declared on `*LoggerFacade` in `loggerFacade.go`; `Close()` has no result. -/
def LoggerFacade.methodSet : List MethodSig :=
  [logMethod "Debug", logMethod "Info", logMethod "Warn", logMethod "Error",
   { name := "Close", params := [], results := [] }]

/-- Go's rule for a type satisfying an interface: every method of the interface is in the
type's method set with the identical signature. -/
def satisfiesInterface (typeMethods iface : List MethodSig) : Bool :=
  iface.all (fun m => decide (m ∈ typeMethods))

/-! ## Recording loggers

A member that does nothing but append each call it receives to a log, and whose `Close`
returns a prescribed outcome. -/

/-- One call received by a logger. -/
inductive Call where
  | log (sev : Severity) (msg : String) (args : List GoValue)
  | close
deriving DecidableEq

/-- A call together with the identity of the logger that received it. -/
structure Invocation where
  logger : Nat
  call : Call
deriving DecidableEq

/-- The recording logger number `id` whose `Close` returns `closeOutcome`. -/
def recorder (m : Nat × Option GoError) : ILogger (List Invocation) where
  Debug := fun msg args t => t ++ [⟨m.1, .log .Debug msg args⟩]
  Info := fun msg args t => t ++ [⟨m.1, .log .Info msg args⟩]
  Warn := fun msg args t => t ++ [⟨m.1, .log .Warn msg args⟩]
  Error := fun msg args t => t ++ [⟨m.1, .log .Error msg args⟩]
  Close := fun t => (m.2, t ++ [⟨m.1, .close⟩])

/-! ## `loggerFacade.go`: construction -/

/-- `type LoggerConfig struct`. -/
structure LoggerConfig where
  UseCloudWatch : Bool
  UseFileLogger : Bool
  LogDirectory : String
  LogFilePrefix : String
  MaxFileSize : Int
  LogGroupName : String
  LogStreamName : String
deriving DecidableEq

/-- The two backend constructors `NewLoggerFacade` calls, as functions on the world state:
each returns either the error or the constructed logger. `NewFileLogger` is not among the
sources; `NewCloudWatchLogger` opens a cloud session, which succeeds or fails outside the
program; both are therefore taken from the environment. -/
structure Backends (σ : Type) where
  NewCloudWatchLogger : String → String → σ → Except GoError (ILogger σ) × σ
  NewFileLogger : String → String → Int → σ → Except GoError (ILogger σ) × σ

/-- `func NewLoggerFacade(config LoggerConfig) (*LoggerFacade, error)`;
`Except.error e` is the return `nil, e` and `Except.ok lf` the return `lf, nil`. -/
def NewLoggerFacade {σ : Type} (env : Backends σ) (config : LoggerConfig) (w : σ) :
    Except GoError (LoggerFacade σ) × σ :=
  if !config.UseCloudWatch && !config.UseFileLogger then
    (.error "either UseCloudWatch or UseFileLogger must be true", w)
  else if config.UseCloudWatch && config.UseFileLogger then
    (.error "only one of UseCloudWatch or UseFileLogger can be true", w)
  else if config.UseCloudWatch then
    match env.NewCloudWatchLogger config.LogGroupName config.LogStreamName w with
    | (.error err, w1) => (.error err, w1)
    | (.ok cwLogger, w1) => (.ok { logger := cwLogger }, w1)
  else
    match env.NewFileLogger config.LogDirectory config.LogFilePrefix config.MaxFileSize w with
    | (.error err, w1) => (.error err, w1)
    | (.ok fileLogger, w1) => (.ok { logger := fileLogger }, w1)

/-- One call of a backend constructor, with its arguments. -/
inductive CtorCall where
  | cloudWatch (logGroupName logStreamName : String)
  | file (logDirectory logFilePrefix : String) (maxFileSize : Int)
deriving DecidableEq

/-- Backend constructors that append every call made to them to a log and answer as
`cw` and `file` prescribe. -/
def recordingBackends
    (cw : String → String → Except GoError (ILogger (List CtorCall)))
    (file : String → String → Int → Except GoError (ILogger (List CtorCall))) :
    Backends (List CtorCall) where
  NewCloudWatchLogger := fun g s w => (cw g s, w ++ [.cloudWatch g s])
  NewFileLogger := fun d p m w => (file d p m, w ++ [.file d p m])

/-- A logger that does nothing, used as the product of a backend constructor. -/
def nullLogger (σ : Type) : ILogger σ where
  Debug := fun _ _ w => w
  Info := fun _ _ w => w
  Warn := fun _ _ w => w
  Error := fun _ _ w => w
  Close := fun w => (none, w)

/-! ## `cloudWatchLogger.go`

The sink is a small concurrent program: callers of `Debug/Info/Warn/Error` send on the
buffered channel `logChan`, one goroutine (`writeToCloudWatch`) receives from it, and
`Close` closes the channel and waits on the unbuffered channel `doneChan`. It is modelled
as a transition system whose state holds the channel buffer, the program counters of the
goroutine and of the `Close` call, and the observable effects. -/

/-- `type LogMessage struct`. -/
structure LogMessage where
  LogGroupName : String
  LogStreamName : String
  Message : String
deriving DecidableEq

/-- `func NewLogMessage(logGroupName, logStreamName, message string) LogMessage`. -/
def NewLogMessage (logGroupName logStreamName message : String) : LogMessage :=
  { LogGroupName := logGroupName, LogStreamName := logStreamName, Message := message }

/-- `cloudwatchlogs.InputLogEvent`, the fields the sink sets. -/
structure InputLogEvent where
  Timestamp : Int
  Message : String
deriving DecidableEq

/-- `cloudwatchlogs.PutLogEventsInput`, the fields the sink sets. -/
structure PutLogEventsInput where
  LogGroupName : String
  LogStreamName : String
  LogEvents : List InputLogEvent
deriving DecidableEq

/-- Where the goroutine running `writeToCloudWatch` stands. -/
inductive WorkerPc where
  /-- at `for logMsg := range logChan`, about to receive -/
  | ranging
  /-- in the loop body with `logMsg` received, about to call `PutLogEvents` -/
  | putting (logMsg : LogMessage)
  /-- the loop has ended, at `doneChan <- true` -/
  | signalling
  /-- `return nil` executed -/
  | returned
deriving DecidableEq

/-- Where the call of `Close` stands. -/
inductive CloserPc where
  /-- `Close` has not been called -/
  | idle
  /-- `close(cwl.logChan)` executed, at `<-cwl.doneChan` -/
  | waiting
  /-- `Close` has returned `err` -/
  | returned (err : Option GoError)
deriving DecidableEq

/-- The capacity of `logChan`: `make(chan LogMessage, 100)` in `NewCloudWatchLogger`. -/
def logChanCapacity : Nat := 100

/-- A `CloudWatchLogger` together with the state of its channels, of its goroutine, of its
`Close` call and of the world it acts on. -/
structure CloudWatchLogger where
  logGroupName : String
  logStreamName : String
  /-- the buffer of `logChan`, oldest element first -/
  logChan : List LogMessage
  /-- whether `close(logChan)` has been executed -/
  logChanClosed : Bool
  worker : WorkerPc
  closer : CloserPc
  /-- the `PutLogEvents` requests issued to the service, oldest first -/
  putLogEvents : List PutLogEventsInput
  /-- the lines written with `fmt.Printf` -/
  stdout : List String
  /-- the number of values transferred over `doneChan` -/
  doneSignals : Nat
  /-- a run-time panic has happened (send on, or close of, a closed channel) -/
  panicked : Bool
deriving DecidableEq

/-- The struct built by `NewCloudWatchLogger`, with empty open channels and the goroutine
started at the top of `writeToCloudWatch`. -/
def freshSink (logGroupName logStreamName : String) : CloudWatchLogger :=
  { logGroupName := logGroupName, logStreamName := logStreamName,
    logChan := [], logChanClosed := false,
    worker := .ranging, closer := .idle,
    putLogEvents := [], stdout := [], doneSignals := 0, panicked := false }

/-- `func NewCloudWatchLogger(logGroupName, logStreamName string) (*CloudWatchLogger, error)`.
`sessionErr` is the error returned by `session.NewSession`. -/
def NewCloudWatchLogger (sessionErr : Option GoError) (logGroupName logStreamName : String) :
    Except GoError CloudWatchLogger :=
  match sessionErr with
  | some err => .error err
  | none => .ok (freshSink logGroupName logStreamName)

/-- The statement `cwl.logChan <- logMsg`: it panics on a closed channel, completes when the
buffer has room, and otherwise cannot proceed (`none`: the sender stays blocked). -/
def CloudWatchLogger.send (cwl : CloudWatchLogger) (logMsg : LogMessage) :
    Option CloudWatchLogger :=
  if cwl.logChanClosed then
    some { cwl with panicked := true }
  else if cwl.logChan.length < logChanCapacity then
    some { cwl with logChan := cwl.logChan ++ [logMsg] }
  else
    none

/-- `func (cwl *CloudWatchLogger) Debug(msg string, args ...interface{})`; `Sprintf` is
`fmt.Sprintf`. -/
def CloudWatchLogger.Debug (Sprintf : String → List GoValue → String) (cwl : CloudWatchLogger)
    (msg : String) (args : List GoValue) : Option CloudWatchLogger :=
  let logMsg := NewLogMessage cwl.logGroupName cwl.logStreamName (Sprintf msg args)
  cwl.send logMsg

/-- `func (cwl *CloudWatchLogger) Info(msg string, args ...interface{})`. -/
def CloudWatchLogger.Info (Sprintf : String → List GoValue → String) (cwl : CloudWatchLogger)
    (msg : String) (args : List GoValue) : Option CloudWatchLogger :=
  let logMsg := NewLogMessage cwl.logGroupName cwl.logStreamName (Sprintf msg args)
  cwl.send logMsg

/-- `func (cwl *CloudWatchLogger) Warn(msg string, args ...interface{})`. -/
def CloudWatchLogger.Warn (Sprintf : String → List GoValue → String) (cwl : CloudWatchLogger)
    (msg : String) (args : List GoValue) : Option CloudWatchLogger :=
  let logMsg := NewLogMessage cwl.logGroupName cwl.logStreamName (Sprintf msg args)
  cwl.send logMsg

/-- `func (cwl *CloudWatchLogger) Error(msg string, args ...interface{})`. -/
def CloudWatchLogger.Error (Sprintf : String → List GoValue → String) (cwl : CloudWatchLogger)
    (msg : String) (args : List GoValue) : Option CloudWatchLogger :=
  let logMsg := NewLogMessage cwl.logGroupName cwl.logStreamName (Sprintf msg args)
  cwl.send logMsg

/-- The request built in the body of the delivery loop; `nowNano` is `time.Now().UnixNano()`
and `int64(time.Millisecond)` is 1000000. -/
def putRequest (logMsg : LogMessage) (nowNano : Int) : PutLogEventsInput :=
  { LogGroupName := logMsg.LogGroupName,
    LogStreamName := logMsg.LogStreamName,
    LogEvents := [{ Timestamp := Int.tdiv nowNano 1000000, Message := logMsg.Message }] }

/-- The line printed when `PutLogEvents` returns an error. -/
def putFailureLine (logMsg : LogMessage) (err : GoError) : String :=
  "failed to put CloudWatch log event for log group " ++ logMsg.LogGroupName ++
    " and log stream " ++ logMsg.LogStreamName ++ ": " ++ err ++ "\n"

/-- One evaluation of `for logMsg := range logChan` by the goroutine: it takes the oldest
buffered message, or leaves the loop when the channel is closed and empty, or stays blocked
(`none`) when the channel is open and empty. -/
def CloudWatchLogger.writeToCloudWatch_range (cwl : CloudWatchLogger) : Option CloudWatchLogger :=
  match cwl.worker with
  | .ranging =>
    match cwl.logChan with
    | logMsg :: rest => some { cwl with logChan := rest, worker := .putting logMsg }
    | [] => if cwl.logChanClosed then some { cwl with worker := .signalling } else none
  | _ => none

/-- The body of the delivery loop for the message received: one `PutLogEvents` call, whose
answer `err` comes from the service, a printed line when it failed, and back to `range`. -/
def CloudWatchLogger.writeToCloudWatch_body (cwl : CloudWatchLogger) (nowNano : Int) (err : Option GoError) :
    Option CloudWatchLogger :=
  match cwl.worker with
  | .putting logMsg =>
    some { cwl with
      putLogEvents := cwl.putLogEvents ++ [putRequest logMsg nowNano],
      stdout := match err with
        | some e => cwl.stdout ++ [putFailureLine logMsg e]
        | none => cwl.stdout,
      worker := .ranging }
  | _ => none

/-- The first statement of `Close`, `close(cwl.logChan)`; closing a closed channel panics. -/
def CloudWatchLogger.Close_closeLogChan (cwl : CloudWatchLogger) : Option CloudWatchLogger :=
  if cwl.logChanClosed then
    some { cwl with panicked := true }
  else
    some { cwl with logChanClosed := true, closer := .waiting }

/-- The communication on the unbuffered `doneChan`: `doneChan <- true` in the goroutine and
`<-cwl.doneChan` in `Close` happen together; afterwards the goroutine executes `return nil`
and `Close` executes `return nil`. -/
def CloudWatchLogger.doneChan_handshake (cwl : CloudWatchLogger) : Option CloudWatchLogger :=
  match cwl.worker, cwl.closer with
  | .signalling, .waiting =>
    some { cwl with worker := .returned, closer := .returned none,
                    doneSignals := cwl.doneSignals + 1 }
  | _, _ => none

/-- The atomic actions of the sink and of its callers. -/
inductive Action where
  /-- a call of `Debug`, `Info`, `Warn` or `Error` running to the end of its channel send -/
  | emit (sev : Severity) (msg : String) (args : List GoValue)
  /-- the goroutine evaluates `range logChan` -/
  | receive
  /-- the goroutine calls `PutLogEvents`; the clock reads `nowNano`, the service answers `err` -/
  | put (nowNano : Int) (err : Option GoError)
  /-- a call of `Close` executes `close(cwl.logChan)` -/
  | closeLogChan
  /-- the communication on `doneChan` -/
  | handshake
deriving DecidableEq

/-- One step of the sink: `none` when the action cannot take place in this state (its thread
is blocked or is elsewhere, or the program has panicked). -/
def CloudWatchLogger.step (Sprintf : String → List GoValue → String) (cwl : CloudWatchLogger)
    (a : Action) : Option CloudWatchLogger :=
  if cwl.panicked then none
  else
    match a with
    | .emit .Debug msg args => cwl.Debug Sprintf msg args
    | .emit .Info msg args => cwl.Info Sprintf msg args
    | .emit .Warn msg args => cwl.Warn Sprintf msg args
    | .emit .Error msg args => cwl.Error Sprintf msg args
    | .receive => cwl.writeToCloudWatch_range
    | .put nowNano err => cwl.writeToCloudWatch_body nowNano err
    | .closeLogChan => cwl.Close_closeLogChan
    | .handshake => cwl.doneChan_handshake

/-- A run: the actions are taken one after the other; `none` when one of them cannot be. -/
def CloudWatchLogger.run (Sprintf : String → List GoValue → String) :
    CloudWatchLogger → List Action → Option CloudWatchLogger
  | cwl, [] => some cwl
  | cwl, a :: rest =>
    match cwl.step Sprintf a with
    | some cwl1 => CloudWatchLogger.run Sprintf cwl1 rest
    | none => none

/-- The messages the `emit` actions of a run send, for a sink of the given identity. -/
def sentBy (Sprintf : String → List GoValue → String) (logGroupName logStreamName : String) :
    List Action → List LogMessage
  | [] => []
  | .emit _ msg args :: rest =>
    NewLogMessage logGroupName logStreamName (Sprintf msg args) ::
      sentBy Sprintf logGroupName logStreamName rest
  | _ :: rest => sentBy Sprintf logGroupName logStreamName rest

/-- What a request carries besides the time stamp: group, stream, and the messages of its
events. -/
def PutLogEventsInput.payload (r : PutLogEventsInput) : String × String × List String :=
  (r.LogGroupName, r.LogStreamName, r.LogEvents.map (fun e => e.Message))

/-- What the request delivering a record has to carry: the record's group and stream and
exactly one event with the record's message. -/
def LogMessage.payload (m : LogMessage) : String × String × List String :=
  (m.LogGroupName, m.LogStreamName, [m.Message])

/-- The message the goroutine holds between its receive and its `PutLogEvents` call. -/
def CloudWatchLogger.inFlight (cwl : CloudWatchLogger) : List LogMessage :=
  match cwl.worker with
  | .putting logMsg => [logMsg]
  | _ => []

/-- The goroutine alone, from `range logChan` with `n` messages buffered on a closed channel:
`n` rounds of receive and put, then the receive that ends the loop. The `k`-th call of
`PutLogEvents` reads the clock and is answered as `env k` says. -/
def drainSchedule (env : Nat → Int × Option GoError) : Nat → Nat → List Action
  | _, 0 => [.receive]
  | k, n + 1 => .receive :: .put (env k).1 (env k).2 :: drainSchedule env (k + 1) n

/-- The goroutine alone on a closed channel, from wherever it stands: it finishes the call it
may be in and drains the buffer; nothing is left to do once the loop has ended. -/
def workerSchedule (env : Nat → Int × Option GoError) (cwl : CloudWatchLogger) : List Action :=
  match cwl.worker with
  | .ranging => drainSchedule env cwl.putLogEvents.length cwl.logChan.length
  | .putting _ =>
    .put (env cwl.putLogEvents.length).1 (env cwl.putLogEvents.length).2 ::
      drainSchedule env (cwl.putLogEvents.length + 1) cwl.logChan.length
  | .signalling => []
  | .returned => []

/-- The rest of a shutdown once `close(logChan)` is executed: the goroutine runs to the end of
its loop and the communication on `doneChan` takes place. -/
def shutdownSchedule (env : Nat → Int × Option GoError) (cwl : CloudWatchLogger) : List Action :=
  workerSchedule env cwl ++ [.handshake]

/-- The invariant of the sink after the run `acts` from a fresh sink for `(g, st)`. -/
structure SinkInv (Sprintf : String → List GoValue → String) (g st : String)
    (acts : List Action) (cwl : CloudWatchLogger) : Prop where
  /-- the identity of the sink never changes -/
  group : cwl.logGroupName = g
  stream : cwl.logStreamName = st
  /-- the buffer never exceeds the capacity of the channel -/
  bounded : cwl.logChan.length ≤ logChanCapacity
  /-- without panic, the requests issued, the message in flight and the buffer are, in this
  order, the messages sent -/
  fifo : cwl.panicked = false →
    cwl.putLogEvents.map PutLogEventsInput.payload ++
        (cwl.inFlight ++ cwl.logChan).map LogMessage.payload =
      (sentBy Sprintf g st acts).map LogMessage.payload
  /-- the loop ends only on a closed, empty channel -/
  drained : cwl.worker = .signalling ∨ cwl.worker = .returned →
    cwl.logChanClosed = true ∧ cwl.logChan = []
  /-- `Close` is idle exactly as long as the channel is open -/
  idle : cwl.closer = .idle ↔ cwl.logChanClosed = false
  /-- the goroutine and `Close` return together, and `Close` returns nil -/
  together : cwl.worker = .returned ↔ cwl.closer = .returned none
  nilResult : ∀ e, cwl.closer = .returned e → e = none
  /-- one value has crossed `doneChan` once the goroutine has returned, none before -/
  signals : cwl.doneSignals = if cwl.worker = .returned then 1 else 0

/-- The record a logging call with the given template and arguments sends on a sink for
`(g, st)`. -/
def recordOfCall (Sprintf : String → List GoValue → String) (g st : String)
    (c : Severity × String × List GoValue) : LogMessage :=
  NewLogMessage g st (Sprintf c.2.1 c.2.2)

/-- A complete life of a sink that receives the given logging calls: each call is followed by
its delivery, then `Close` closes the channel and the goroutine leaves its loop. -/
def lockstepSchedule (env : Nat → Int × Option GoError) :
    Nat → List (Severity × String × List GoValue) → List Action
  | _, [] => [.closeLogChan, .receive]
  | k, c :: rest =>
    .emit c.1 c.2.1 c.2.2 :: .receive :: .put (env k).1 (env k).2 ::
      lockstepSchedule env (k + 1) rest

/-- The sink for group "g", stream "s" after one `Info("hello %s", "world")` and the first
statement of `Close`: one message buffered, channel closed, `Close` waiting. -/
def helloSinkClosing : CloudWatchLogger :=
  { freshSink "g" "s" with
    logChan := [NewLogMessage "g" "s" "hello world"],
    logChanClosed := true,
    closer := .waiting }

/-- The sink for group "g", stream "s" after one hundred `Debug("x")` calls that the goroutine
has not begun to deliver: the buffer is full. -/
def fullSink : CloudWatchLogger :=
  { freshSink "g" "s" with logChan := List.replicate 100 (NewLogMessage "g" "s" "x") }

/-- A stand-in for `fmt.Sprintf` on templates whose only verbs are `%s`, each with a string
operand: every `%s` is replaced by the next operand. -/
def substVerbS : List Char → List GoValue → List Char
  | [], _ => []
  | '%' :: 's' :: rest, .str a :: args => a.toList ++ substVerbS rest args
  | c :: rest, args => c :: substVerbS rest args

/-- The stand-in as a function on strings. -/
def sprintfVerbS (template : String) (args : List GoValue) : String :=
  String.mk (substVerbS template.toList args)

/-! ## `secrets.go` -/

/-- `secretsmanager.GetSecretValueInput`, the field `GetSecret` sets; a `*string`. -/
structure GetSecretValueInput where
  SecretId : Option String
deriving DecidableEq

/-- `secretsmanager.GetSecretValueOutput`, the field `GetSecret` reads; a `*string`. -/
structure GetSecretValueOutput where
  SecretString : Option String
deriving DecidableEq

/-- `aws.String`: a pointer to the string. -/
def awsString (v : String) : Option String := some v

/-- `aws.StringValue`: the string pointed to, or the empty string for a nil pointer. -/
def awsStringValue (p : Option String) : String :=
  match p with
  | some v => v
  | none => ""

/-- A Secrets Manager client (`secretsmanageriface.SecretsManagerAPI`), the one method used:
`GetSecretValue` returns a possibly-nil output pointer and a possibly-nil error, and may
change the world. -/
structure SecretsManagerAPI (σ : Type) where
  GetSecretValue : GetSecretValueInput → σ → (Option GetSecretValueOutput × Option GoError) × σ

/-- `func getSecretWithClient(secretName string, smClient SecretsManagerAPI) (string, error)`
of `secrets_test.go`. The outer `Option` is `none` when the function panics (a nil output
pointer is dereferenced). -/
def getSecretWithClient {σ : Type} (secretName : String) (smClient : SecretsManagerAPI σ)
    (w : σ) : Option (String × Option GoError) × σ :=
  let input : GetSecretValueInput := { SecretId := awsString secretName }
  match smClient.GetSecretValue input w with
  | ((_, some err), w1) => (some ("", some ("failed to get secret value: " ++ err)), w1)
  | ((some result, none), w1) => (some (awsStringValue result.SecretString, none), w1)
  | ((none, none), w1) => (none, w1)

/-- `func GetSecret(secretName string) (string, error)`. `sessionErr` is the error returned by
`session.NewSession` and `smClient` the client `secretsmanager.New(sess)` yields. -/
def GetSecret {σ : Type} (sessionErr : Option GoError) (smClient : SecretsManagerAPI σ)
    (secretName : String) (w : σ) : Option (String × Option GoError) × σ :=
  match sessionErr with
  | some err => (some ("", some ("failed to create AWS session: " ++ err)), w)
  | none =>
    let input : GetSecretValueInput := { SecretId := awsString secretName }
    match smClient.GetSecretValue input w with
    | ((_, some err), w1) => (some ("", some ("failed to get secret value: " ++ err)), w1)
    | ((some result, none), w1) => (some (awsStringValue result.SecretString, none), w1)
    | ((none, none), w1) => (none, w1)

/-- A client that appends every request it receives to a log and answers as `answer` says. -/
def recordingClient
    (answer : GetSecretValueInput → Option GetSecretValueOutput × Option GoError) :
    SecretsManagerAPI (List GetSecretValueInput) where
  GetSecretValue := fun input w => (answer input, w ++ [input])

/-! # Theorems -/

/-! ## Composite -/

/-- The closing loop over recording members: every member is closed, in order, and the
errors collected are the non-nil outcomes, in order. -/
theorem foldl_closeOne_recorder (members : List (Nat × Option GoError)) :
    ∀ (errs : List GoError) (t : List Invocation),
      (members.map recorder).foldl LoggerComposition.closeOne (errs, t) =
        (errs ++ members.filterMap (fun m => m.2),
         t ++ members.map (fun m => ⟨m.1, .close⟩)) := by
  induction members with
  | nil => intro errs t; simp
  | cons m rest ih =>
    intro errs t
    obtain ⟨i, o⟩ := m
    cases o with
    | none => simp [LoggerComposition.closeOne, recorder, ih]
    | some e => simp [LoggerComposition.closeOne, recorder, ih]

/-- The closing loop changes the world as closing the members one after the other does. -/
theorem foldl_closeOne_world {σ : Type} (loggers : List (ILogger σ)) :
    ∀ (acc : List GoError × σ),
      (loggers.foldl LoggerComposition.closeOne acc).2 =
        loggers.foldl (fun w logger => (logger.Close w).2) acc.2 := by
  induction loggers with
  | nil => intro acc; rfl
  | cons l rest ih =>
    intro acc
    simp only [List.foldl_cons, ih]
    congr 1
    unfold LoggerComposition.closeOne
    split <;> rename_i h <;> simp [h]

/-- A logging loop over recording members appends one call per member, in order. -/
theorem foldl_recorder_log (sev : Severity) (msg : String) (args : List GoValue)
    (members : List (Nat × Option GoError)) :
    ∀ (t : List Invocation),
      (members.map recorder).foldl (fun w logger => logger.emit sev msg args w) t =
        t ++ members.map (fun m => ⟨m.1, .log sev msg args⟩) := by
  induction members with
  | nil => intro t; simp
  | cons m rest ih =>
    intro t
    simp only [List.map_cons, List.foldl_cons]
    rw [ih]
    cases sev <;> simp [ILogger.emit, recorder]

/-- C1: `LoggerComposition.Close` never short-circuits. For recording members with any
assignment of close outcomes, the calls made are exactly one `Close` per member, in the order
of construction; the result is non-nil exactly when some member returned an error; for
arbitrary members the world ends as after closing each in order; and with S1, S3 succeeding
and S2 failing all three are closed and the result is an error. -/
theorem LoggerComposition_Close_closes_every_member :
    (∀ (members : List (Nat × Option GoError)) (t : List Invocation),
      ((NewLoggerComposition (members.map recorder)).Close t).2 =
          t ++ members.map (fun m => ⟨m.1, .close⟩) ∧
      ((((NewLoggerComposition (members.map recorder)).Close t).1).isSome = true ↔
          ∃ m ∈ members, m.2.isSome = true)) ∧
    (∀ (σ : Type) (loggers : List (ILogger σ)) (w : σ),
      ((NewLoggerComposition loggers).Close w).2 =
          loggers.foldl (fun w logger => (logger.Close w).2) w) ∧
    (NewLoggerComposition ([(1, none), (2, some "stream gone"), (3, none)].map recorder)).Close []
      = (some "error closing loggers: [stream gone]",
         [⟨1, .close⟩, ⟨2, .close⟩, ⟨3, .close⟩]) := by
  refine ⟨?_, ?_, ?_⟩
  · intro members t
    have h := foldl_closeOne_recorder members [] t
    constructor
    · simp only [NewLoggerComposition, LoggerComposition.Close, h]
      split <;> rfl
    · simp only [NewLoggerComposition, LoggerComposition.Close, h, List.nil_append]
      have hlen : (0 < (members.filterMap (fun m => m.2)).length) ↔
          ∃ m ∈ members, m.2.isSome = true := by
        rw [List.length_pos, ne_eq, List.filterMap_eq_nil_iff]
        constructor
        · intro hne
          by_contra hcon
          apply hne
          intro m hm
          cases hm2 : m.2 with
          | none => rfl
          | some e => exact absurd ⟨m, hm, by simp [hm2]⟩ hcon
        · rintro ⟨m, hm, hs⟩ hall
          have := hall m hm
          simp [this] at hs
      split
      · rename_i hpos
        simp only [Option.isSome_some, true_iff]
        exact hlen.mp hpos
      · rename_i hpos
        simp only [Option.isSome_none, Bool.false_eq_true, false_iff]
        exact fun hex => hpos (hlen.mpr hex)
  · intro σ loggers w
    have h := foldl_closeOne_world loggers ([], w)
    simp only [NewLoggerComposition, LoggerComposition.Close]
    split <;> exact h
  · decide

/-- C2: fan-out. One call of a severity on a composite of recording members appends exactly
one call of that severity, with the same template and arguments, per member, in the order of
construction, and nothing else; for arbitrary members the call is the members' calls of the
same severity, one after the other. -/
theorem LoggerComposition_fans_out (sev : Severity) (msg : String) (args : List GoValue) :
    (∀ (members : List (Nat × Option GoError)) (t : List Invocation),
      (NewLoggerComposition (members.map recorder)).emit sev msg args t =
        t ++ members.map (fun m => ⟨m.1, .log sev msg args⟩)) ∧
    (∀ (σ : Type) (loggers : List (ILogger σ)) (w : σ),
      (NewLoggerComposition loggers).emit sev msg args w =
        loggers.foldl (fun w logger => logger.emit sev msg args w) w) := by
  have hgen : ∀ (σ : Type) (loggers : List (ILogger σ)) (w : σ),
      (NewLoggerComposition loggers).emit sev msg args w =
        loggers.foldl (fun w logger => logger.emit sev msg args w) w := by
    intro σ loggers w
    cases sev <;> rfl
  refine ⟨?_, hgen⟩
  intro members t
  rw [hgen, foldl_recorder_log]

/-! ## Facade -/

/-- C8: the facade forwards each of `Debug`, `Info`, `Warn`, `Error` to the same method of its
delegate with the same template and arguments, and `Close` calls the delegate's `Close` once;
but its `Close()` has no result, so the error the delegate returns is lost (a delegate whose
`Close` fails and one whose `Close` succeeds are indistinguishable through the facade) and the
facade's method set does not satisfy `ILogger`, which `LoggerComposition` does. -/
theorem LoggerFacade_forwards_but_Close_has_no_result :
    (∀ (σ : Type) (lf : LoggerFacade σ) (msg : String) (args : List GoValue) (w : σ),
      lf.Debug msg args w = lf.logger.Debug msg args w ∧
      lf.Info msg args w = lf.logger.Info msg args w ∧
      lf.Warn msg args w = lf.logger.Warn msg args w ∧
      lf.Error msg args w = lf.logger.Error msg args w ∧
      lf.Close w = (lf.logger.Close w).2) ∧
    (∀ (i : Nat) (o : Option GoError) (sev : Severity) (msg : String) (args : List GoValue)
        (t : List Invocation),
      (match sev with
        | .Debug => LoggerFacade.Debug
        | .Info => LoggerFacade.Info
        | .Warn => LoggerFacade.Warn
        | .Error => LoggerFacade.Error) { logger := recorder (i, o) } msg args t
          = t ++ [⟨i, .log sev msg args⟩] ∧
      LoggerFacade.Close { logger := recorder (i, o) } t = t ++ [⟨i, .close⟩]) ∧
    ((recorder (7, some "disk full")).Close [] = (some "disk full", [⟨7, .close⟩]) ∧
      LoggerFacade.Close { logger := recorder (7, some "disk full") } [] =
        LoggerFacade.Close { logger := recorder (7, none) } []) ∧
    satisfiesInterface LoggerFacade.methodSet ILogger.methodSet = false ∧
    satisfiesInterface LoggerComposition.methodSet ILogger.methodSet = true := by
  refine ⟨?_, ?_, ?_, ?_, ?_⟩
  · intro σ lf msg args w
    exact ⟨rfl, rfl, rfl, rfl, rfl⟩
  · intro i o sev msg args t
    constructor
    · cases sev <;> rfl
    · rfl
  · exact ⟨rfl, rfl⟩
  · decide
  · decide

/-- C3: ambiguous backend selection is rejected before any backend is constructed. When the
two flags are equal, `NewLoggerFacade` returns no facade and the configuration error, leaves
the world as it was for any constructors, and with recording constructors no call is logged;
when they differ, exactly one constructor call is made, so the validation let the
configuration through. -/
theorem NewLoggerFacade_rejects_ambiguous_selection {σ : Type} (env : Backends σ)
    (cw : String → String → Except GoError (ILogger (List CtorCall)))
    (file : String → String → Int → Except GoError (ILogger (List CtorCall)))
    (config : LoggerConfig) (w : σ) (log : List CtorCall) :
    (config.UseCloudWatch = config.UseFileLogger →
      NewLoggerFacade env config w =
        (.error (if config.UseCloudWatch then
                   "only one of UseCloudWatch or UseFileLogger can be true"
                 else "either UseCloudWatch or UseFileLogger must be true"), w) ∧
      NewLoggerFacade (recordingBackends cw file) config log =
        (.error (if config.UseCloudWatch then
                   "only one of UseCloudWatch or UseFileLogger can be true"
                 else "either UseCloudWatch or UseFileLogger must be true"), log)) ∧
    (config.UseCloudWatch ≠ config.UseFileLogger →
      ∃ c, (NewLoggerFacade (recordingBackends cw file) config log).2 = log ++ [c]) := by
  obtain ⟨ucw, ufl, d, p, m, g, s⟩ := config
  constructor
  · intro h
    simp only at h
    subst h
    cases ucw <;> simp [NewLoggerFacade]
  · intro h
    simp only [ne_eq] at h
    cases ucw <;> cases ufl <;> simp at h
    · refine ⟨.file d p m, ?_⟩
      simp only [NewLoggerFacade, recordingBackends]
      cases file d p m <;> simp
    · refine ⟨.cloudWatch g s, ?_⟩
      simp only [NewLoggerFacade, recordingBackends]
      cases cw g s <;> simp

/-- Witness for C3: both flags true is rejected; the CloudWatch flag alone is let through. -/
theorem NewLoggerFacade_rejects_ambiguous_selection_witness :
    NewLoggerFacade (recordingBackends (fun _ _ => .ok (nullLogger _)) (fun _ _ _ => .ok (nullLogger _)))
        { UseCloudWatch := true, UseFileLogger := true, LogDirectory := "./logs",
          LogFilePrefix := "test", MaxFileSize := 1024, LogGroupName := "g",
          LogStreamName := "s" } []
      = (.error "only one of UseCloudWatch or UseFileLogger can be true", []) ∧
    ∃ c, (NewLoggerFacade
        (recordingBackends (fun _ _ => .ok (nullLogger _)) (fun _ _ _ => .ok (nullLogger _)))
        { UseCloudWatch := true, UseFileLogger := false, LogDirectory := "./logs",
          LogFilePrefix := "test", MaxFileSize := 1024, LogGroupName := "g",
          LogStreamName := "s" } []).2 = [] ++ [c] :=
  ⟨((NewLoggerFacade_rejects_ambiguous_selection
        (recordingBackends (fun _ _ => .ok (nullLogger _)) (fun _ _ _ => .ok (nullLogger _)))
        (fun _ _ => .ok (nullLogger _)) (fun _ _ _ => .ok (nullLogger _))
        { UseCloudWatch := true, UseFileLogger := true, LogDirectory := "./logs",
          LogFilePrefix := "test", MaxFileSize := 1024, LogGroupName := "g",
          LogStreamName := "s" } [] []).1 rfl).2,
   (NewLoggerFacade_rejects_ambiguous_selection
        (recordingBackends (fun _ _ => .ok (nullLogger _)) (fun _ _ _ => .ok (nullLogger _)))
        (fun _ _ => .ok (nullLogger _)) (fun _ _ _ => .ok (nullLogger _))
        { UseCloudWatch := true, UseFileLogger := false, LogDirectory := "./logs",
          LogFilePrefix := "test", MaxFileSize := 1024, LogGroupName := "g",
          LogStreamName := "s" } [] []).2 (by decide)⟩

/-- C4: with exactly one flag true, `NewLoggerFacade` calls the selected constructor with the
configured parameters and no other: the result is the constructor's, a success wrapped as the
facade's sole delegate and a failure returned unchanged, and with recording constructors the
log grows by exactly that one call. -/
theorem NewLoggerFacade_selects_one_backend {σ : Type} (env : Backends σ)
    (cw : String → String → Except GoError (ILogger (List CtorCall)))
    (file : String → String → Int → Except GoError (ILogger (List CtorCall)))
    (config : LoggerConfig) (w : σ) (log : List CtorCall)
    (h : config.UseCloudWatch ≠ config.UseFileLogger) :
    (config.UseCloudWatch = true →
      NewLoggerFacade env config w =
        ((env.NewCloudWatchLogger config.LogGroupName config.LogStreamName w).1.map
            LoggerFacade.mk,
         (env.NewCloudWatchLogger config.LogGroupName config.LogStreamName w).2) ∧
      NewLoggerFacade (recordingBackends cw file) config log =
        ((cw config.LogGroupName config.LogStreamName).map LoggerFacade.mk,
         log ++ [.cloudWatch config.LogGroupName config.LogStreamName])) ∧
    (config.UseFileLogger = true →
      NewLoggerFacade env config w =
        ((env.NewFileLogger config.LogDirectory config.LogFilePrefix config.MaxFileSize w).1.map
            LoggerFacade.mk,
         (env.NewFileLogger config.LogDirectory config.LogFilePrefix config.MaxFileSize w).2) ∧
      NewLoggerFacade (recordingBackends cw file) config log =
        ((file config.LogDirectory config.LogFilePrefix config.MaxFileSize).map LoggerFacade.mk,
         log ++ [.file config.LogDirectory config.LogFilePrefix config.MaxFileSize])) ∧
    (∀ (L : ILogger σ) (w1 : σ),
      (if config.UseCloudWatch then
          env.NewCloudWatchLogger config.LogGroupName config.LogStreamName w
        else env.NewFileLogger config.LogDirectory config.LogFilePrefix config.MaxFileSize w)
        = (.ok L, w1) →
      NewLoggerFacade env config w = (.ok { logger := L }, w1)) ∧
    (∀ (e : GoError) (w1 : σ),
      (if config.UseCloudWatch then
          env.NewCloudWatchLogger config.LogGroupName config.LogStreamName w
        else env.NewFileLogger config.LogDirectory config.LogFilePrefix config.MaxFileSize w)
        = (.error e, w1) →
      NewLoggerFacade env config w = (.error e, w1)) := by
  obtain ⟨ucw, ufl, d, p, m, g, s⟩ := config
  simp only [ne_eq] at h
  have key : ∀ {τ : Type} (b : Backends τ) (v : τ),
      NewLoggerFacade b ⟨ucw, ufl, d, p, m, g, s⟩ v =
        if ucw then ((b.NewCloudWatchLogger g s v).1.map LoggerFacade.mk,
                     (b.NewCloudWatchLogger g s v).2)
        else ((b.NewFileLogger d p m v).1.map LoggerFacade.mk, (b.NewFileLogger d p m v).2) := by
    intro τ b v
    cases ucw <;> cases ufl <;> simp at h
    · simp only [NewLoggerFacade]
      rcases hr : b.NewFileLogger d p m v with ⟨r, v1⟩
      cases r <;> simp [Except.map]
    · simp only [NewLoggerFacade]
      rcases hr : b.NewCloudWatchLogger g s v with ⟨r, v1⟩
      cases r <;> simp [Except.map]
  refine ⟨?_, ?_, ?_, ?_⟩
  · intro hc
    simp only at hc
    subst hc
    exact ⟨by rw [key]; simp, by rw [key]; simp [recordingBackends]⟩
  · intro hf
    simp only at hf
    subst hf
    have hc : ucw = false := by cases ucw <;> simp_all
    subst hc
    exact ⟨by rw [key]; simp, by rw [key]; simp [recordingBackends]⟩
  · intro L w1 hres
    rw [key]
    cases ucw <;> simp_all [Except.map]
  · intro e w1 hres
    rw [key]
    cases ucw <;> simp_all [Except.map]

/-- Witness for C4: the CloudWatch flag alone, with a constructor that succeeds. -/
theorem NewLoggerFacade_selects_one_backend_witness :
    (NewLoggerFacade
        (recordingBackends (fun _ _ => .ok (nullLogger _)) (fun _ _ _ => .error "no directory"))
        { UseCloudWatch := true, UseFileLogger := false, LogDirectory := "./logs",
          LogFilePrefix := "test", MaxFileSize := 1024, LogGroupName := "g",
          LogStreamName := "s" } []).2 = [] ++ [.cloudWatch "g" "s"] :=
  congrArg Prod.snd
    (((NewLoggerFacade_selects_one_backend
        (recordingBackends (fun _ _ => .ok (nullLogger _)) (fun _ _ _ => .error "no directory"))
        (fun _ _ => .ok (nullLogger _)) (fun _ _ _ => .error "no directory")
        { UseCloudWatch := true, UseFileLogger := false, LogDirectory := "./logs",
          LogFilePrefix := "test", MaxFileSize := 1024, LogGroupName := "g",
          LogStreamName := "s" } [] [] (by decide)).1 rfl).2)

/-! ## Secrets -/

/-- C10: `GetSecret` (and `getSecretWithClient` of the tests) returns the stored value or an
error, never both. The request made carries the given name as its `SecretId`; if the client
answers it with secret string `v` the result is `(v, nil)`; if the client answers with an
error the result is the empty string and a non-nil error; any result that carries an error
carries the empty string; a recording client logs exactly the one request; and the two cases
of `TestGetSecret` come out as the test expects. -/
theorem GetSecret_value_or_error {σ : Type} (smClient : SecretsManagerAPI σ)
    (secretName : String) (w : σ) :
    (∀ (v : String) (w1 : σ),
      smClient.GetSecretValue { SecretId := some secretName } w =
          ((some { SecretString := some v }, none), w1) →
      getSecretWithClient secretName smClient w = (some (v, none), w1) ∧
      GetSecret none smClient secretName w = (some (v, none), w1)) ∧
    (∀ (out : Option GetSecretValueOutput) (e : GoError) (w1 : σ),
      smClient.GetSecretValue { SecretId := some secretName } w = ((out, some e), w1) →
      ∃ err, getSecretWithClient secretName smClient w = (some ("", some err), w1) ∧
        GetSecret none smClient secretName w = (some ("", some err), w1)) ∧
    (∀ (sessionErr : Option GoError) (v : String) (err : GoError),
      ((getSecretWithClient secretName smClient w).1 = some (v, some err) → v = "") ∧
      ((GetSecret sessionErr smClient secretName w).1 = some (v, some err) → v = "")) ∧
    (∀ (answer : GetSecretValueInput → Option GetSecretValueOutput × Option GoError)
        (log : List GetSecretValueInput),
      (getSecretWithClient secretName (recordingClient answer) log).2 =
          log ++ [{ SecretId := some secretName }] ∧
      (GetSecret none (recordingClient answer) secretName log).2 =
          log ++ [{ SecretId := some secretName }]) ∧
    getSecretWithClient "test-secret"
        (recordingClient (fun _ => (some { SecretString := some "test-secret-value" }, none))) []
      = (some ("test-secret-value", none), [{ SecretId := some "test-secret" }]) ∧
    getSecretWithClient "test-secret" (recordingClient (fun _ => (none, some "test error"))) []
      = (some ("", some "failed to get secret value: test error"),
         [{ SecretId := some "test-secret" }]) := by
  refine ⟨?_, ?_, ?_, ?_, ?_, ?_⟩
  · intro v w1 h
    simp [getSecretWithClient, GetSecret, awsString, awsStringValue, h]
  · intro out e w1 h
    exact ⟨"failed to get secret value: " ++ e,
      by simp [getSecretWithClient, GetSecret, awsString, h]⟩
  · intro sessionErr v err
    constructor
    · intro h
      simp only [getSecretWithClient] at h
      split at h <;> simp at h
      exact h.1.symm
    · intro h
      simp only [GetSecret] at h
      split at h
      · simp at h
        exact h.1.symm
      · split at h <;> simp at h
        exact h.1.symm
  · intro answer log
    constructor
    · simp only [getSecretWithClient, recordingClient, awsString]
      split <;> rename_i hh <;> simp at hh <;> simp [hh]
    · simp only [GetSecret, recordingClient, awsString]
      split <;> rename_i hh <;> simp at hh <;> simp [hh]
  · decide
  · decide

/-- Witness for C10: a client that answers every request with "test-secret-value". -/
theorem GetSecret_value_or_error_witness :
    getSecretWithClient "test-secret"
        (recordingClient (fun _ => (some { SecretString := some "test-secret-value" }, none))) []
      = (some ("test-secret-value", none), [] ++ [{ SecretId := some "test-secret" }]) ∧
    GetSecret none
        (recordingClient (fun _ => (some { SecretString := some "test-secret-value" }, none)))
        "test-secret" []
      = (some ("test-secret-value", none), [] ++ [{ SecretId := some "test-secret" }]) :=
  (GetSecret_value_or_error
      (recordingClient (fun _ => (some { SecretString := some "test-secret-value" }, none)))
      "test-secret" []).1 "test-secret-value" [GetSecretValueInput.mk (some "test-secret")]
    (by decide)

/-! ## CloudWatch sink -/

/-- The messages sent by a run made of two parts. -/
theorem sentBy_append (Sprintf : String → List GoValue → String) (g st : String)
    (xs ys : List Action) :
    sentBy Sprintf g st (xs ++ ys) = sentBy Sprintf g st xs ++ sentBy Sprintf g st ys := by
  induction xs with
  | nil => rfl
  | cons a rest ih =>
    cases a <;> simp [sentBy, ih]

/-- A run made of two parts is the second part run from where the first ends. -/
theorem run_append (Sprintf : String → List GoValue → String) (xs ys : List Action) :
    ∀ (cwl : CloudWatchLogger),
      cwl.run Sprintf (xs ++ ys) = (cwl.run Sprintf xs).bind (fun c => c.run Sprintf ys) := by
  induction xs with
  | nil => intro cwl; rfl
  | cons a rest ih =>
    intro cwl
    simp only [List.cons_append, CloudWatchLogger.run]
    cases h : cwl.step Sprintf a with
    | none => rfl
    | some c => exact ih c

/-- All four logging methods are the same channel send. -/
theorem step_emit_eq_send (Sprintf : String → List GoValue → String) (cwl : CloudWatchLogger)
    (sev : Severity) (msg : String) (args : List GoValue) (hnp : cwl.panicked = false) :
    cwl.step Sprintf (.emit sev msg args) =
      cwl.send (NewLogMessage cwl.logGroupName cwl.logStreamName (Sprintf msg args)) := by
  cases sev <;>
    simp [CloudWatchLogger.step, hnp, CloudWatchLogger.Debug, CloudWatchLogger.Info,
      CloudWatchLogger.Warn, CloudWatchLogger.Error]

/-- A step is only taken by a program that has not panicked. -/
theorem not_panicked_of_step (Sprintf : String → List GoValue → String)
    (cwl cwl1 : CloudWatchLogger) (a : Action) (h : cwl.step Sprintf a = some cwl1) :
    cwl.panicked = false := by
  unfold CloudWatchLogger.step at h
  split at h
  · exact absurd h (by simp)
  · rename_i hp
    simpa using hp

/-- The payload of the request built for a message is the payload of the message. -/
theorem payload_putRequest (logMsg : LogMessage) (nowNano : Int) :
    (putRequest logMsg nowNano).payload = logMsg.payload := rfl

/-- The fresh sink satisfies the invariant. -/
theorem SinkInv_new (Sprintf : String → List GoValue → String) (sessionErr : Option GoError)
    (g st : String) (cwl0 : CloudWatchLogger)
    (hnew : NewCloudWatchLogger sessionErr g st = .ok cwl0) :
    SinkInv Sprintf g st [] cwl0 := by
  unfold NewCloudWatchLogger at hnew
  cases sessionErr with
  | some e => simp at hnew
  | none =>
    simp only [Except.ok.injEq] at hnew
    subst hnew
    constructor <;> simp [freshSink, CloudWatchLogger.inFlight, sentBy, logChanCapacity]

/-- A completed channel send keeps the invariant. -/
theorem SinkInv_send (Sprintf : String → List GoValue → String) (g st : String)
    (acts : List Action) (cwl cwl1 : CloudWatchLogger) (sev : Severity) (msg : String)
    (args : List GoValue) (inv : SinkInv Sprintf g st acts cwl)
    (h : cwl.send (NewLogMessage cwl.logGroupName cwl.logStreamName (Sprintf msg args))
      = some cwl1) :
    SinkInv Sprintf g st (acts ++ [.emit sev msg args]) cwl1 := by
  unfold CloudWatchLogger.send at h
  split at h
  · simp only [Option.some.injEq] at h
    subst h
    exact { group := inv.group, stream := inv.stream, bounded := inv.bounded,
            fifo := by simp,
            drained := inv.drained, idle := inv.idle, together := inv.together,
            nilResult := inv.nilResult, signals := inv.signals }
  · split at h
    · rename_i hopen hlen
      simp only [Option.some.injEq] at h
      subst h
      refine { group := inv.group, stream := inv.stream, bounded := ?_, fifo := ?_,
               drained := ?_, idle := inv.idle, together := inv.together,
               nilResult := inv.nilResult, signals := inv.signals }
      · simp only [List.length_append, List.length_singleton]
        omega
      · intro hnp
        have hf := inv.fifo hnp
        simp only [CloudWatchLogger.inFlight] at hf ⊢
        simp only [sentBy_append, List.map_append, ← hf, inv.group, inv.stream]
        simp [sentBy, List.append_assoc]
      · intro hw
        have hd := inv.drained hw
        simp [hd.1] at hopen
    · simp at h

/-- A step of the goroutine's `range` keeps the invariant. -/
theorem SinkInv_receive (Sprintf : String → List GoValue → String) (g st : String)
    (acts : List Action) (cwl cwl1 : CloudWatchLogger)
    (inv : SinkInv Sprintf g st acts cwl) (h : cwl.writeToCloudWatch_range = some cwl1) :
    SinkInv Sprintf g st (acts ++ [.receive]) cwl1 := by
  unfold CloudWatchLogger.writeToCloudWatch_range at h
  split at h
  · rename_i hw
    split at h
    · rename_i logMsg rest hq
      simp only [Option.some.injEq] at h
      subst h
      have hsig := inv.signals
      have htog := inv.together
      refine { group := inv.group, stream := inv.stream, bounded := ?_, fifo := ?_,
               drained := ?_, idle := inv.idle, together := ?_,
               nilResult := inv.nilResult, signals := ?_ }
      · have := inv.bounded
        simp only [hq, List.length_cons] at this
        simp only
        omega
      · intro hnp
        have hf := inv.fifo hnp
        simp only [CloudWatchLogger.inFlight, hw, hq, List.nil_append] at hf
        simp only [CloudWatchLogger.inFlight, sentBy_append, List.map_append, ← hf]
        simp [sentBy]
      · intro hcon
        simp at hcon
      · simp only [hw] at htog
        simpa using htog
      · simp only [hw] at hsig
        simpa using hsig
    · rename_i hq
      split at h
      · rename_i hclosed
        simp only [Option.some.injEq] at h
        subst h
        have hsig := inv.signals
        have htog := inv.together
        refine { group := inv.group, stream := inv.stream, bounded := inv.bounded, fifo := ?_,
                 drained := ?_, idle := inv.idle, together := ?_,
                 nilResult := inv.nilResult, signals := ?_ }
        · intro hnp
          have hf := inv.fifo hnp
          simp only [CloudWatchLogger.inFlight, hw] at hf
          simp only [CloudWatchLogger.inFlight, sentBy_append, List.map_append, ← hf]
          simp [sentBy]
        · intro _
          exact ⟨hclosed, hq⟩
        · simp only [hw] at htog
          simpa using htog
        · simp only [hw] at hsig
          simpa using hsig
      · simp at h
  · simp at h

/-- A `PutLogEvents` call of the goroutine keeps the invariant, whatever its outcome. -/
theorem SinkInv_put (Sprintf : String → List GoValue → String) (g st : String)
    (acts : List Action) (cwl cwl1 : CloudWatchLogger) (nowNano : Int) (err : Option GoError)
    (inv : SinkInv Sprintf g st acts cwl) (h : cwl.writeToCloudWatch_body nowNano err = some cwl1) :
    SinkInv Sprintf g st (acts ++ [.put nowNano err]) cwl1 := by
  unfold CloudWatchLogger.writeToCloudWatch_body at h
  split at h
  · rename_i logMsg hw
    simp only [Option.some.injEq] at h
    subst h
    have hsig := inv.signals
    have htog := inv.together
    refine { group := inv.group, stream := inv.stream, bounded := inv.bounded, fifo := ?_,
             drained := ?_, idle := inv.idle, together := ?_,
             nilResult := inv.nilResult, signals := ?_ }
    · intro hnp
      have hf := inv.fifo hnp
      simp only [CloudWatchLogger.inFlight, hw] at hf
      simp only [CloudWatchLogger.inFlight, sentBy_append, List.map_append, ← hf]
      simp [sentBy, payload_putRequest]
    · intro hcon
      simp at hcon
    · simp only [hw] at htog
      simpa using htog
    · simp only [hw] at hsig
      simpa using hsig
  · simp at h

/-- Closing the channel keeps the invariant. -/
theorem SinkInv_closeLogChan (Sprintf : String → List GoValue → String) (g st : String)
    (acts : List Action) (cwl cwl1 : CloudWatchLogger)
    (inv : SinkInv Sprintf g st acts cwl) (h : cwl.Close_closeLogChan = some cwl1) :
    SinkInv Sprintf g st (acts ++ [.closeLogChan]) cwl1 := by
  have hsent : sentBy Sprintf g st (acts ++ [.closeLogChan]) = sentBy Sprintf g st acts := by
    simp [sentBy_append, sentBy]
  unfold CloudWatchLogger.Close_closeLogChan at h
  split at h
  · simp only [Option.some.injEq] at h
    subst h
    exact { group := inv.group, stream := inv.stream, bounded := inv.bounded,
            fifo := by simp,
            drained := inv.drained, idle := inv.idle, together := inv.together,
            nilResult := inv.nilResult, signals := inv.signals }
  · rename_i hopen
    simp only [Option.some.injEq] at h
    subst h
    have hclosed : cwl.logChanClosed = false := by simpa using hopen
    have hidle : cwl.closer = .idle := inv.idle.mpr hclosed
    have hnr : cwl.worker ≠ .returned := by
      intro hw
      have := inv.together.mp hw
      rw [hidle] at this
      exact absurd this (by simp)
    have hsig := inv.signals
    refine { group := inv.group, stream := inv.stream, bounded := inv.bounded, fifo := ?_,
             drained := ?_, idle := ?_, together := ?_, nilResult := ?_, signals := hsig }
    · intro hnp
      rw [hsent]
      exact inv.fifo hnp
    · intro hw
      have := (inv.drained hw).1
      simp [hclosed] at this
    · simp
    · simp only [reduceCtorEq, iff_false]
      exact hnr
    · intro e he
      simp at he

/-- The communication on `doneChan` keeps the invariant. -/
theorem SinkInv_handshake (Sprintf : String → List GoValue → String) (g st : String)
    (acts : List Action) (cwl cwl1 : CloudWatchLogger)
    (inv : SinkInv Sprintf g st acts cwl) (h : cwl.doneChan_handshake = some cwl1) :
    SinkInv Sprintf g st (acts ++ [.handshake]) cwl1 := by
  have hsent : sentBy Sprintf g st (acts ++ [.handshake]) = sentBy Sprintf g st acts := by
    simp [sentBy_append, sentBy]
  unfold CloudWatchLogger.doneChan_handshake at h
  split at h
  · rename_i hw hc
    simp only [Option.some.injEq] at h
    subst h
    have hd := inv.drained (Or.inl hw)
    have hsig := inv.signals
    refine { group := inv.group, stream := inv.stream, bounded := inv.bounded, fifo := ?_,
             drained := ?_, idle := ?_, together := ?_, nilResult := ?_, signals := ?_ }
    · intro hnp
      have hf := inv.fifo hnp
      simp only [CloudWatchLogger.inFlight, hw] at hf
      simp only [CloudWatchLogger.inFlight, hsent, ← hf]
    · intro _
      exact hd
    · simp [hd.1]
    · simp
    · intro e he
      simp only [CloserPc.returned.injEq] at he
      exact he.symm
    · simp only [hw] at hsig
      simp at hsig
      simp [hsig]
  · simp at h

/-- Every step keeps the invariant. -/
theorem SinkInv_step (Sprintf : String → List GoValue → String) (g st : String)
    (acts : List Action) (cwl cwl1 : CloudWatchLogger) (a : Action)
    (inv : SinkInv Sprintf g st acts cwl) (h : cwl.step Sprintf a = some cwl1) :
    SinkInv Sprintf g st (acts ++ [a]) cwl1 := by
  have hnp := not_panicked_of_step Sprintf cwl cwl1 a h
  cases a with
  | emit sev msg args =>
    rw [step_emit_eq_send Sprintf cwl sev msg args hnp] at h
    exact SinkInv_send Sprintf g st acts cwl cwl1 sev msg args inv h
  | receive =>
    simp only [CloudWatchLogger.step, hnp, Bool.false_eq_true, if_false] at h
    exact SinkInv_receive Sprintf g st acts cwl cwl1 inv h
  | put nowNano err =>
    simp only [CloudWatchLogger.step, hnp, Bool.false_eq_true, if_false] at h
    exact SinkInv_put Sprintf g st acts cwl cwl1 nowNano err inv h
  | closeLogChan =>
    simp only [CloudWatchLogger.step, hnp, Bool.false_eq_true, if_false] at h
    exact SinkInv_closeLogChan Sprintf g st acts cwl cwl1 inv h
  | handshake =>
    simp only [CloudWatchLogger.step, hnp, Bool.false_eq_true, if_false] at h
    exact SinkInv_handshake Sprintf g st acts cwl cwl1 inv h

/-- Every run keeps the invariant. -/
theorem SinkInv_run (Sprintf : String → List GoValue → String) (g st : String)
    (acts : List Action) :
    ∀ (pre : List Action) (cwl cwl1 : CloudWatchLogger),
      SinkInv Sprintf g st pre cwl → cwl.run Sprintf acts = some cwl1 →
      SinkInv Sprintf g st (pre ++ acts) cwl1 := by
  induction acts with
  | nil =>
    intro pre cwl cwl1 inv h
    simp only [CloudWatchLogger.run, Option.some.injEq] at h
    subst h
    simpa using inv
  | cons a rest ih =>
    intro pre cwl cwl1 inv h
    simp only [CloudWatchLogger.run] at h
    cases hs : cwl.step Sprintf a with
    | none => simp [hs] at h
    | some c =>
      simp only [hs] at h
      have := ih (pre ++ [a]) c cwl1 (SinkInv_step Sprintf g st pre cwl c a inv hs) h
      simpa using this

/-- The invariant holds after every run of a sink built by `NewCloudWatchLogger`. -/
theorem SinkInv_of_run (Sprintf : String → List GoValue → String) (sessionErr : Option GoError)
    (g st : String) (acts : List Action) (cwl0 cwl : CloudWatchLogger)
    (hnew : NewCloudWatchLogger sessionErr g st = .ok cwl0)
    (hrun : cwl0.run Sprintf acts = some cwl) :
    SinkInv Sprintf g st acts cwl := by
  have := SinkInv_run Sprintf g st acts [] cwl0 cwl
    (SinkInv_new Sprintf sessionErr g st cwl0 hnew) hrun
  simpa using this

/-- The goroutine's own schedule sends nothing. -/
theorem sentBy_drainSchedule (Sprintf : String → List GoValue → String) (g st : String)
    (env : Nat → Int × Option GoError) (n : Nat) :
    ∀ (k : Nat), sentBy Sprintf g st (drainSchedule env k n) = [] := by
  induction n with
  | zero => intro k; rfl
  | succ n ih => intro k; simp [drainSchedule, sentBy, ih]

/-- The goroutine's schedule from any point sends nothing. -/
theorem sentBy_workerSchedule (Sprintf : String → List GoValue → String) (g st : String)
    (env : Nat → Int × Option GoError) (cwl : CloudWatchLogger) :
    sentBy Sprintf g st (workerSchedule env cwl) = [] := by
  unfold workerSchedule
  split <;> simp [sentBy, sentBy_drainSchedule]

/-- On a closed channel the goroutine, standing at `range` with `n` messages buffered, takes
`n` rounds of receive and put and then leaves the loop, whatever the calls answer. -/
theorem drainSchedule_runs (Sprintf : String → List GoValue → String)
    (env : Nat → Int × Option GoError) (n : Nat) :
    ∀ (k : Nat) (cwl : CloudWatchLogger),
      cwl.panicked = false → cwl.worker = .ranging → cwl.logChanClosed = true →
      cwl.logChan.length = n →
      ∃ cwl1, cwl.run Sprintf (drainSchedule env k n) = some cwl1 ∧
        cwl1.worker = .signalling ∧ cwl1.panicked = false ∧ cwl1.closer = cwl.closer ∧
        cwl1.doneSignals = cwl.doneSignals ∧
        cwl1.putLogEvents.length = cwl.putLogEvents.length + n := by
  induction n with
  | zero =>
    intro k cwl hnp hw hc hlen
    have hq : cwl.logChan = [] := List.length_eq_zero.mp hlen
    refine ⟨{ cwl with worker := .signalling }, ?_, rfl, hnp, rfl, rfl, rfl⟩
    simp [drainSchedule, CloudWatchLogger.run, CloudWatchLogger.step, hnp,
      CloudWatchLogger.writeToCloudWatch_range, hw, hq, hc]
  | succ n ih =>
    intro k cwl hnp hw hc hlen
    obtain ⟨logMsg, rest, hq⟩ : ∃ logMsg rest, cwl.logChan = logMsg :: rest := by
      cases hq : cwl.logChan with
      | nil => simp [hq] at hlen
      | cons a b => exact ⟨a, b, rfl⟩
    have hrest : rest.length = n := by
      simp only [hq, List.length_cons] at hlen
      omega
    obtain ⟨cwl1, hrun, h1, h2, h3, h4, h5⟩ := ih (k + 1)
      { cwl with
        logChan := rest,
        putLogEvents := cwl.putLogEvents ++ [putRequest logMsg (env k).1],
        stdout := match (env k).2 with
          | some e => cwl.stdout ++ [putFailureLine logMsg e]
          | none => cwl.stdout,
        worker := .ranging } hnp rfl hc hrest
    refine ⟨cwl1, ?_, h1, h2, h3, h4, ?_⟩
    · rw [← hrun]
      simp [drainSchedule, CloudWatchLogger.run, CloudWatchLogger.step, hnp,
        CloudWatchLogger.writeToCloudWatch_range, CloudWatchLogger.writeToCloudWatch_body, hw, hq]
    · rw [h5]
      simp only [List.length_append, List.length_singleton]
      omega

/-- On a closed channel the goroutine reaches the end of its loop from wherever it stands. -/
theorem workerSchedule_runs (Sprintf : String → List GoValue → String)
    (env : Nat → Int × Option GoError) (cwl : CloudWatchLogger)
    (hnp : cwl.panicked = false) (hc : cwl.logChanClosed = true) :
    ∃ cwl1, cwl.run Sprintf (workerSchedule env cwl) = some cwl1 ∧
      (cwl1.worker = .signalling ∨ cwl1.worker = .returned) ∧
      (cwl.worker ≠ .returned → cwl1.worker = .signalling) ∧
      cwl1.panicked = false ∧ cwl1.closer = cwl.closer ∧
      cwl1.doneSignals = cwl.doneSignals := by
  cases hw : cwl.worker with
  | ranging =>
    obtain ⟨cwl1, hrun, h1, h2, h3, h4, _⟩ :=
      drainSchedule_runs Sprintf env cwl.logChan.length cwl.putLogEvents.length cwl hnp hw hc rfl
    exact ⟨cwl1, by simpa [workerSchedule, hw] using hrun, Or.inl h1, fun _ => h1, h2, h3, h4⟩
  | putting logMsg =>
    obtain ⟨cwl1, hrun, h1, h2, h3, h4, _⟩ :=
      drainSchedule_runs Sprintf env cwl.logChan.length (cwl.putLogEvents.length + 1)
        { cwl with
          putLogEvents := cwl.putLogEvents ++
            [putRequest logMsg (env cwl.putLogEvents.length).1],
          stdout := match (env cwl.putLogEvents.length).2 with
            | some e => cwl.stdout ++ [putFailureLine logMsg e]
            | none => cwl.stdout,
          worker := .ranging } hnp rfl hc rfl
    refine ⟨cwl1, ?_, Or.inl h1, fun _ => h1, h2, h3, h4⟩
    rw [← hrun]
    simp [workerSchedule, CloudWatchLogger.run, CloudWatchLogger.step, hnp,
      CloudWatchLogger.writeToCloudWatch_body, hw]
  | signalling =>
    exact ⟨cwl, by simp [workerSchedule, hw, CloudWatchLogger.run], Or.inl hw,
      fun _ => hw, hnp, rfl, rfl⟩
  | returned =>
    exact ⟨cwl, by simp [workerSchedule, hw, CloudWatchLogger.run], Or.inr hw,
      fun h => absurd rfl h, hnp, rfl, rfl⟩

/-- Once the loop has ended without panic, the requests issued are the messages sent. -/
theorem all_delivered_of_loop_ended (Sprintf : String → List GoValue → String) (g st : String)
    (acts : List Action) (cwl : CloudWatchLogger) (inv : SinkInv Sprintf g st acts cwl)
    (hnp : cwl.panicked = false)
    (hw : cwl.worker = .signalling ∨ cwl.worker = .returned) :
    cwl.putLogEvents.map PutLogEventsInput.payload =
      (sentBy Sprintf g st acts).map LogMessage.payload := by
  have hf := inv.fifo hnp
  have hq := (inv.drained hw).2
  rcases hw with hw | hw <;>
    simpa [CloudWatchLogger.inFlight, hw, hq] using hf

/-- The lockstep schedule sends the records of the calls, in order. -/
theorem sentBy_lockstepSchedule (Sprintf : String → List GoValue → String) (g st : String)
    (env : Nat → Int × Option GoError) (calls : List (Severity × String × List GoValue)) :
    ∀ (k : Nat), sentBy Sprintf g st (lockstepSchedule env k calls) =
      calls.map (recordOfCall Sprintf g st) := by
  induction calls with
  | nil => intro k; rfl
  | cons c rest ih => intro k; simp [lockstepSchedule, sentBy, ih, recordOfCall]

/-- The lockstep schedule can be run from any open sink whose goroutine stands at `range`
with an empty buffer, and ends with the loop left and no panic. -/
theorem lockstepSchedule_runs (Sprintf : String → List GoValue → String)
    (env : Nat → Int × Option GoError) (calls : List (Severity × String × List GoValue)) :
    ∀ (k : Nat) (cwl : CloudWatchLogger),
      cwl.panicked = false → cwl.worker = .ranging → cwl.logChanClosed = false →
      cwl.logChan = [] →
      ∃ cwl1, cwl.run Sprintf (lockstepSchedule env k calls) = some cwl1 ∧
        cwl1.worker = .signalling ∧ cwl1.panicked = false := by
  induction calls with
  | nil =>
    intro k cwl hnp hw hopen hq
    refine ⟨{ cwl with logChanClosed := true, closer := .waiting, worker := .signalling },
      ?_, rfl, hnp⟩
    simp [lockstepSchedule, CloudWatchLogger.run, CloudWatchLogger.step, hnp,
      CloudWatchLogger.Close_closeLogChan, CloudWatchLogger.writeToCloudWatch_range, hw, hq,
      hopen]
  | cons c rest ih =>
    intro k cwl hnp hw hopen hq
    obtain ⟨cwl1, hrun, h1, h2⟩ := ih (k + 1)
      { cwl with
        putLogEvents := cwl.putLogEvents ++
          [putRequest (NewLogMessage cwl.logGroupName cwl.logStreamName (Sprintf c.2.1 c.2.2))
            (env k).1],
        stdout := match (env k).2 with
          | some e => cwl.stdout ++
              [putFailureLine
                (NewLogMessage cwl.logGroupName cwl.logStreamName (Sprintf c.2.1 c.2.2)) e]
          | none => cwl.stdout }
      hnp hw hopen hq
    refine ⟨cwl1, ?_, h1, h2⟩
    rw [← hrun]
    simp only [lockstepSchedule, CloudWatchLogger.run]
    rw [step_emit_eq_send Sprintf cwl c.1 c.2.1 c.2.2 hnp]
    simp [CloudWatchLogger.send, hopen, hq, logChanCapacity, CloudWatchLogger.step, hnp,
      CloudWatchLogger.writeToCloudWatch_range, CloudWatchLogger.writeToCloudWatch_body, hw]

/-- C5: the delivery loop is FIFO, makes one call per record, and survives failures. After any
run without panic of a sink built by `NewCloudWatchLogger`: the requests issued so far are, in
order, those for the first records sent, each with the record's group and stream and exactly
one event carrying its message, and no record is lost; once the loop has ended, the requests
are exactly those for all the records sent; on a closed channel the goroutine does reach the
end of its loop, with exactly one request per record, for every assignment of clock readings
and call outcomes; a failed call issues the same single request as a successful one, leaves
the buffer alone and returns to `range` (no retry, no stop, no skip), only printing a line;
and every finite sequence of logging calls, with every assignment of outcomes, does occur in
a run that ends with the loop left and exactly the requests for its records, in order. -/
theorem writeToCloudWatch_delivers_each_record_in_order
    (Sprintf : String → List GoValue → String) (sessionErr : Option GoError) (g st : String)
    (acts : List Action) (cwl0 cwl : CloudWatchLogger)
    (hnew : NewCloudWatchLogger sessionErr g st = .ok cwl0)
    (hrun : cwl0.run Sprintf acts = some cwl)
    (hnp : cwl.panicked = false) :
    cwl.putLogEvents.map PutLogEventsInput.payload =
      ((sentBy Sprintf g st acts).take cwl.putLogEvents.length).map LogMessage.payload ∧
    cwl.putLogEvents.length + cwl.inFlight.length + cwl.logChan.length =
      (sentBy Sprintf g st acts).length ∧
    (cwl.worker = .signalling ∨ cwl.worker = .returned →
      cwl.putLogEvents.map PutLogEventsInput.payload =
        (sentBy Sprintf g st acts).map LogMessage.payload ∧
      cwl.putLogEvents.length = (sentBy Sprintf g st acts).length) ∧
    (cwl.logChanClosed = true → ∀ (env : Nat → Int × Option GoError),
      ∃ cwl1, cwl.run Sprintf (workerSchedule env cwl) = some cwl1 ∧
        (cwl1.worker = .signalling ∨ cwl1.worker = .returned) ∧
        cwl1.putLogEvents.map PutLogEventsInput.payload =
          (sentBy Sprintf g st acts).map LogMessage.payload ∧
        cwl1.putLogEvents.length = (sentBy Sprintf g st acts).length) ∧
    (∀ (nowNano : Int) (e : GoError) (logMsg : LogMessage), cwl.worker = .putting logMsg →
      ∃ c1 c2, cwl.step Sprintf (.put nowNano (some e)) = some c1 ∧
        cwl.step Sprintf (.put nowNano none) = some c2 ∧
        c1.putLogEvents = cwl.putLogEvents ++ [putRequest logMsg nowNano] ∧
        c1.putLogEvents = c2.putLogEvents ∧
        c1.logChan = cwl.logChan ∧ c2.logChan = cwl.logChan ∧
        c1.worker = .ranging ∧ c2.worker = .ranging ∧
        c1.stdout = cwl.stdout ++ [putFailureLine logMsg e] ∧ c2.stdout = cwl.stdout) ∧
    (∀ (calls : List (Severity × String × List GoValue)) (env : Nat → Int × Option GoError),
      ∃ cwl1, cwl0.run Sprintf (lockstepSchedule env 0 calls) = some cwl1 ∧
        sentBy Sprintf g st (lockstepSchedule env 0 calls) =
          calls.map (recordOfCall Sprintf g st) ∧
        cwl1.worker = .signalling ∧ cwl1.panicked = false ∧
        cwl1.putLogEvents.map PutLogEventsInput.payload =
          (calls.map (recordOfCall Sprintf g st)).map LogMessage.payload ∧
        cwl1.putLogEvents.length = calls.length) := by
  have inv := SinkInv_of_run Sprintf sessionErr g st acts cwl0 cwl hnew hrun
  have hf := inv.fifo hnp
  have hlen := congrArg List.length hf
  simp only [List.length_append, List.length_map] at hlen
  refine ⟨?_, by omega, ?_, ?_, ?_, ?_⟩
  · rw [List.map_take, ← hf]
    have := List.take_left (cwl.putLogEvents.map PutLogEventsInput.payload)
      ((cwl.inFlight ++ cwl.logChan).map LogMessage.payload)
    simp only [List.length_map] at this
    exact this.symm
  · intro hw
    have hall := all_delivered_of_loop_ended Sprintf g st acts cwl inv hnp hw
    refine ⟨hall, ?_⟩
    have := congrArg List.length hall
    simpa using this
  · intro hc env
    obtain ⟨cwl1, hrun1, hw1, _, hnp1, _, _⟩ := workerSchedule_runs Sprintf env cwl hnp hc
    have inv1 := SinkInv_run Sprintf g st (workerSchedule env cwl) acts cwl cwl1 inv hrun1
    have hall := all_delivered_of_loop_ended Sprintf g st _ cwl1 inv1 hnp1 hw1
    rw [sentBy_append, sentBy_workerSchedule, List.append_nil] at hall
    refine ⟨cwl1, hrun1, hw1, hall, ?_⟩
    have := congrArg List.length hall
    simpa using this
  · intro nowNano e logMsg hw
    simp [CloudWatchLogger.step, hnp, CloudWatchLogger.writeToCloudWatch_body, hw]
  · intro calls env
    have hfresh : cwl0 = freshSink g st := by
      unfold NewCloudWatchLogger at hnew
      cases sessionErr with
      | some e => simp at hnew
      | none => simpa using hnew.symm
    obtain ⟨cwl1, hrun1, hw1, hnp1⟩ :=
      lockstepSchedule_runs Sprintf env calls 0 cwl0 (by rw [hfresh]; rfl) (by rw [hfresh]; rfl)
        (by rw [hfresh]; rfl) (by rw [hfresh]; rfl)
    have inv1 := SinkInv_of_run Sprintf sessionErr g st _ cwl0 cwl1 hnew hrun1
    have hall := all_delivered_of_loop_ended Sprintf g st _ cwl1 inv1 hnp1 (Or.inl hw1)
    rw [sentBy_lockstepSchedule] at hall
    refine ⟨cwl1, hrun1, sentBy_lockstepSchedule Sprintf g st env calls 0, hw1, hnp1, hall, ?_⟩
    have := congrArg List.length hall
    simpa using this

/-- Witness for C5: the sink for ("g", "s") after one `Info` call and `close(logChan)`. -/
theorem writeToCloudWatch_delivers_each_record_in_order_witness :
    helloSinkClosing.putLogEvents.length + helloSinkClosing.inFlight.length +
        helloSinkClosing.logChan.length =
      (sentBy sprintfVerbS "g" "s"
        [.emit .Info "hello %s" [.str "world"], .closeLogChan]).length :=
  (writeToCloudWatch_delivers_each_record_in_order sprintfVerbS none "g" "s"
    [.emit .Info "hello %s" [.str "world"], .closeLogChan] (freshSink "g" "s") helloSinkClosing
    rfl (by decide) rfl).2.1

/-- C6: shutdown drain. After any run of a sink built by `NewCloudWatchLogger`: at most one
value has crossed `doneChan`; if one has, the channel is closed and empty, nothing is in
flight and (without panic) every record sent has had its one request; the communication on
`doneChan` can only take place in such a state, never before, and it is what makes `Close`
return; a `Close` that has returned has returned nil, after the signal; a `Close` still
waiting has not received it; `Close` starts by closing the channel; and a waiting `Close`
does return nil, after one request per record, for every assignment of clock readings and
call outcomes. -/
theorem Close_returns_after_drain
    (Sprintf : String → List GoValue → String) (sessionErr : Option GoError) (g st : String)
    (acts : List Action) (cwl0 cwl : CloudWatchLogger)
    (hnew : NewCloudWatchLogger sessionErr g st = .ok cwl0)
    (hrun : cwl0.run Sprintf acts = some cwl) :
    cwl.doneSignals ≤ 1 ∧
    (cwl.doneSignals = 1 →
      cwl.logChanClosed = true ∧ cwl.logChan = [] ∧ cwl.inFlight = [] ∧
      (cwl.panicked = false →
        cwl.putLogEvents.map PutLogEventsInput.payload =
          (sentBy Sprintf g st acts).map LogMessage.payload)) ∧
    (∀ cwl1, cwl.step Sprintf .handshake = some cwl1 →
      cwl.doneSignals = 0 ∧ cwl1.doneSignals = 1 ∧
      cwl.logChanClosed = true ∧ cwl.logChan = [] ∧ cwl.inFlight = [] ∧
      cwl.putLogEvents.map PutLogEventsInput.payload =
        (sentBy Sprintf g st acts).map LogMessage.payload ∧
      cwl1.putLogEvents = cwl.putLogEvents ∧
      cwl.closer = .waiting ∧ cwl1.closer = .returned none) ∧
    (∀ e, cwl.closer = .returned e →
      e = none ∧ cwl.doneSignals = 1 ∧ cwl.logChanClosed = true) ∧
    (cwl.closer = .waiting → cwl.doneSignals = 0 ∧ cwl.logChanClosed = true) ∧
    (cwl.logChanClosed = false → cwl.panicked = false →
      ∃ cwl1, cwl.step Sprintf .closeLogChan = some cwl1 ∧
        cwl1.logChanClosed = true ∧ cwl1.closer = .waiting ∧ cwl1.logChan = cwl.logChan ∧
        cwl1.panicked = false) ∧
    (cwl.closer = .waiting → cwl.panicked = false → ∀ (env : Nat → Int × Option GoError),
      ∃ cwl1, cwl.run Sprintf (shutdownSchedule env cwl) = some cwl1 ∧
        cwl1.closer = .returned none ∧ cwl1.doneSignals = 1 ∧
        cwl1.putLogEvents.map PutLogEventsInput.payload =
          (sentBy Sprintf g st acts).map LogMessage.payload) := by
  have inv := SinkInv_of_run Sprintf sessionErr g st acts cwl0 cwl hnew hrun
  have hsig := inv.signals
  have hret : cwl.doneSignals = 1 → cwl.worker = .returned := by
    intro h1
    by_contra hw
    rw [if_neg hw] at hsig
    omega
  refine ⟨?_, ?_, ?_, ?_, ?_, ?_, ?_⟩
  · split at hsig <;> omega
  · intro h1
    have hw := hret h1
    have hd := inv.drained (Or.inr hw)
    exact ⟨hd.1, hd.2, by simp [CloudWatchLogger.inFlight, hw],
      fun hnp => all_delivered_of_loop_ended Sprintf g st acts cwl inv hnp (Or.inr hw)⟩
  · intro cwl1 hstep
    have hnp := not_panicked_of_step Sprintf cwl cwl1 .handshake hstep
    simp only [CloudWatchLogger.step, hnp, Bool.false_eq_true, if_false,
      CloudWatchLogger.doneChan_handshake] at hstep
    split at hstep
    · rename_i hw hc
      simp only [Option.some.injEq] at hstep
      subst hstep
      have hd := inv.drained (Or.inl hw)
      have h0 : cwl.doneSignals = 0 := by simpa [hw] using hsig
      exact ⟨h0, by simp [h0], hd.1, hd.2, by simp [CloudWatchLogger.inFlight, hw],
        all_delivered_of_loop_ended Sprintf g st acts cwl inv hnp (Or.inl hw), rfl, hc, rfl⟩
    · simp at hstep
  · intro e he
    have hnil := inv.nilResult e he
    subst hnil
    have hw := inv.together.mpr he
    exact ⟨rfl, by simpa [hw] using hsig, (inv.drained (Or.inr hw)).1⟩
  · intro hc
    have hw : cwl.worker ≠ .returned := by
      intro hw
      have := inv.together.mp hw
      rw [hc] at this
      exact absurd this (by simp)
    refine ⟨by simpa [hw] using hsig, ?_⟩
    by_contra hcl
    have := inv.idle.mpr (by simpa using hcl)
    rw [hc] at this
    exact absurd this (by simp)
  · intro hopen hnp
    exact ⟨{ cwl with logChanClosed := true, closer := .waiting },
      by simp [CloudWatchLogger.step, hnp, CloudWatchLogger.Close_closeLogChan, hopen],
      rfl, rfl, rfl, hnp⟩
  · intro hc hnp env
    have hclosed : cwl.logChanClosed = true := by
      by_contra hcl
      have := inv.idle.mpr (by simpa using hcl)
      rw [hc] at this
      exact absurd this (by simp)
    have hw : cwl.worker ≠ .returned := by
      intro hw
      have := inv.together.mp hw
      rw [hc] at this
      exact absurd this (by simp)
    obtain ⟨c1, hrun1, hw1, hsig1, hnp1, hc1, hd1⟩ :=
      workerSchedule_runs Sprintf env cwl hnp hclosed
    have hw1s := hsig1 hw
    have inv1 := SinkInv_run Sprintf g st (workerSchedule env cwl) acts cwl c1 inv hrun1
    have hall := all_delivered_of_loop_ended Sprintf g st _ c1 inv1 hnp1 hw1
    rw [sentBy_append, sentBy_workerSchedule, List.append_nil] at hall
    have hd0 : c1.doneSignals = 0 := by
      have := inv1.signals
      simpa [hw1s] using this
    refine ⟨{ c1 with worker := .returned, closer := .returned none,
                      doneSignals := c1.doneSignals + 1 }, ?_, rfl, by simp [hd0], hall⟩
    rw [shutdownSchedule, run_append, hrun1]
    simp [CloudWatchLogger.run, CloudWatchLogger.step, hnp1, CloudWatchLogger.doneChan_handshake,
      hw1s, hc1, hc]

/-- Witness for C6: the sink for ("g", "s") after one `Info` call and `close(logChan)`; the
waiting `Close` returns nil after the one record has had its request. -/
theorem Close_returns_after_drain_witness :
    helloSinkClosing.closer = .waiting ∧ helloSinkClosing.panicked = false ∧
    ∃ cwl1, helloSinkClosing.run sprintfVerbS
        (shutdownSchedule (fun _ => (1700000000000000000, some "throttled")) helloSinkClosing)
          = some cwl1 ∧
      cwl1.closer = .returned none ∧ cwl1.doneSignals = 1 ∧
      cwl1.putLogEvents.map PutLogEventsInput.payload =
        (sentBy sprintfVerbS "g" "s"
          [.emit .Info "hello %s" [.str "world"], .closeLogChan]).map LogMessage.payload :=
  ⟨rfl, rfl,
    (Close_returns_after_drain sprintfVerbS none "g" "s"
      [.emit .Info "hello %s" [.str "world"], .closeLogChan] (freshSink "g" "s")
      helloSinkClosing rfl (by decide)).2.2.2.2.2.2 rfl rfl
      (fun _ => (1700000000000000000, some "throttled"))⟩

/-- C7: a logging call on the sink builds and enqueues one record tagged with the sink's
identity. After any run of a sink built by `NewCloudWatchLogger` for `(g, st)`: a call that
completes without panic changes nothing but the buffer, to whose tail it appends the one
record `NewLogMessage g st (Sprintf msg args)`; it does complete when the channel is open and
not full; the four severities are the same step and the same method body; and on a sink for
("g", "s"), `Emit("hello %s", "world")` followed by `Close` ends with `Close` returned nil and
exactly one request, for group "g", stream "s", with the one message "hello world". -/
theorem CloudWatchLogger_emit_enqueues_one_tagged_record
    (Sprintf : String → List GoValue → String) (sessionErr : Option GoError) (g st : String)
    (acts : List Action) (cwl0 cwl : CloudWatchLogger)
    (hnew : NewCloudWatchLogger sessionErr g st = .ok cwl0)
    (hrun : cwl0.run Sprintf acts = some cwl) :
    (∀ sev msg args cwl1, cwl.step Sprintf (.emit sev msg args) = some cwl1 →
      cwl1.panicked = false →
      cwl1 = { cwl with
        logChan := cwl.logChan ++ [NewLogMessage g st (Sprintf msg args)] }) ∧
    (cwl.panicked = false → cwl.logChanClosed = false → cwl.logChan.length < 100 →
      ∀ sev msg args, cwl.step Sprintf (.emit sev msg args) =
        some { cwl with
          logChan := cwl.logChan ++ [NewLogMessage g st (Sprintf msg args)] }) ∧
    (∀ sev sev1 msg args,
      cwl.step Sprintf (.emit sev msg args) = cwl.step Sprintf (.emit sev1 msg args)) ∧
    (∀ msg args,
      cwl.Debug Sprintf msg args = cwl.Info Sprintf msg args ∧
      cwl.Info Sprintf msg args = cwl.Warn Sprintf msg args ∧
      cwl.Warn Sprintf msg args = cwl.Error Sprintf msg args) ∧
    (Sprintf "hello %s" [.str "world"] = "hello world" →
      ∀ (sev : Severity) (nowNano : Int) (err : Option GoError),
        NewCloudWatchLogger none "g" "s" = .ok (freshSink "g" "s") ∧
        ∃ cwl1, (freshSink "g" "s").run Sprintf
            [.emit sev "hello %s" [.str "world"], .closeLogChan, .receive,
             .put nowNano err, .receive, .handshake] = some cwl1 ∧
          cwl1.putLogEvents =
            [{ LogGroupName := "g", LogStreamName := "s",
               LogEvents := [{ Timestamp := Int.tdiv nowNano 1000000,
                               Message := "hello world" }] }] ∧
          cwl1.closer = .returned none ∧ cwl1.logChan = [] ∧ cwl1.panicked = false) := by
  have inv := SinkInv_of_run Sprintf sessionErr g st acts cwl0 cwl hnew hrun
  refine ⟨?_, ?_, ?_, ?_, ?_⟩
  · intro sev msg args cwl1 hstep hnp1
    have hnp := not_panicked_of_step Sprintf cwl cwl1 _ hstep
    rw [step_emit_eq_send Sprintf cwl sev msg args hnp, inv.group, inv.stream] at hstep
    unfold CloudWatchLogger.send at hstep
    split at hstep
    · simp only [Option.some.injEq] at hstep
      subst hstep
      simp at hnp1
    · split at hstep
      · simp only [Option.some.injEq] at hstep
        exact hstep.symm
      · simp at hstep
  · intro hnp hopen hlen sev msg args
    rw [step_emit_eq_send Sprintf cwl sev msg args hnp]
    simp [CloudWatchLogger.send, hopen, logChanCapacity, hlen, inv.group, inv.stream]
  · intro sev sev1 msg args
    cases hp : cwl.panicked with
    | true => simp [CloudWatchLogger.step, hp]
    | false =>
      rw [step_emit_eq_send Sprintf cwl sev msg args hp,
        step_emit_eq_send Sprintf cwl sev1 msg args hp]
  · intro msg args
    exact ⟨rfl, rfl, rfl⟩
  · intro hfmt sev nowNano err
    refine ⟨rfl, ?_⟩
    cases sev <;> cases err <;>
      simp [CloudWatchLogger.run, CloudWatchLogger.step, freshSink, CloudWatchLogger.Debug,
        CloudWatchLogger.Info, CloudWatchLogger.Warn, CloudWatchLogger.Error,
        CloudWatchLogger.send, CloudWatchLogger.writeToCloudWatch_range, CloudWatchLogger.writeToCloudWatch_body,
        CloudWatchLogger.Close_closeLogChan, CloudWatchLogger.doneChan_handshake, logChanCapacity, hfmt,
        NewLogMessage, putRequest]

/-- Witness for C7: with the `%s` stand-in for `Sprintf`, on the fresh sink for ("g", "s"),
an `Info("hello %s", "world")` and a `Close` whose one request succeeds. -/
theorem CloudWatchLogger_emit_enqueues_one_tagged_record_witness :
    sprintfVerbS "hello %s" [.str "world"] = "hello world" ∧
    ∃ cwl1, (freshSink "g" "s").run sprintfVerbS
        [.emit .Info "hello %s" [.str "world"], .closeLogChan, .receive,
         .put 1700000000000000000 none, .receive, .handshake] = some cwl1 ∧
      cwl1.putLogEvents =
        [{ LogGroupName := "g", LogStreamName := "s",
           LogEvents := [{ Timestamp := Int.tdiv 1700000000000000000 1000000,
                           Message := "hello world" }] }] ∧
      cwl1.closer = .returned none ∧ cwl1.logChan = [] ∧ cwl1.panicked = false :=
  ⟨by decide,
    ((CloudWatchLogger_emit_enqueues_one_tagged_record sprintfVerbS none "g" "s" []
      (freshSink "g" "s") (freshSink "g" "s") rfl rfl).2.2.2.2 (by decide)
        .Info 1700000000000000000 none).2⟩

/-- C9: bounded backpressure without loss. After any run of a sink built by
`NewCloudWatchLogger`: the buffer holds at most 100 records; when it holds 100 (channel open,
no panic) a logging call cannot complete, produces no error and no panic and changes nothing,
every other step leaves the buffer as it is except the goroutine's receive, which takes the
oldest record out, and after that receive the call completes and the buffer is the 99 younger
records followed by the new one; when the buffer holds fewer than 100 the call completes at
once, wherever the goroutine stands, without any request being issued; and without panic
every record sent is in a request, in flight or in the buffer, in order. -/
theorem logChan_backpressure_without_loss
    (Sprintf : String → List GoValue → String) (sessionErr : Option GoError) (g st : String)
    (acts : List Action) (cwl0 cwl : CloudWatchLogger)
    (hnew : NewCloudWatchLogger sessionErr g st = .ok cwl0)
    (hrun : cwl0.run Sprintf acts = some cwl) :
    cwl.logChan.length ≤ 100 ∧
    (cwl.logChan.length = 100 → cwl.panicked = false → cwl.logChanClosed = false →
      (∀ sev msg args, cwl.step Sprintf (.emit sev msg args) = none) ∧
      (∀ a cwl1, cwl.step Sprintf a = some cwl1 →
        (a ≠ .receive ∧ cwl1.logChan = cwl.logChan) ∨
        (a = .receive ∧ cwl.worker = .ranging ∧
          cwl1.inFlight ++ cwl1.logChan = cwl.logChan)) ∧
      (∀ cwl1, cwl.step Sprintf .receive = some cwl1 →
        ∀ sev msg args, cwl1.step Sprintf (.emit sev msg args) =
          some { cwl1 with
            logChan := cwl.logChan.tail ++ [NewLogMessage g st (Sprintf msg args)] })) ∧
    (cwl.logChan.length < 100 → cwl.panicked = false → cwl.logChanClosed = false →
      ∀ sev msg args, ∃ cwl1, cwl.step Sprintf (.emit sev msg args) = some cwl1 ∧
        cwl1.logChan = cwl.logChan ++ [NewLogMessage g st (Sprintf msg args)] ∧
        cwl1.putLogEvents = cwl.putLogEvents ∧ cwl1.worker = cwl.worker ∧
        cwl1.panicked = false) ∧
    (cwl.panicked = false →
      cwl.putLogEvents.map PutLogEventsInput.payload ++
          (cwl.inFlight ++ cwl.logChan).map LogMessage.payload =
        (sentBy Sprintf g st acts).map LogMessage.payload) := by
  have inv := SinkInv_of_run Sprintf sessionErr g st acts cwl0 cwl hnew hrun
  refine ⟨inv.bounded, ?_, ?_, inv.fifo⟩
  · intro hfull hnp hopen
    refine ⟨?_, ?_, ?_⟩
    · intro sev msg args
      rw [step_emit_eq_send Sprintf cwl sev msg args hnp]
      simp [CloudWatchLogger.send, hopen, logChanCapacity, hfull]
    · intro a cwl1 hstep
      cases a with
      | emit sev msg args =>
        rw [step_emit_eq_send Sprintf cwl sev msg args hnp] at hstep
        simp [CloudWatchLogger.send, hopen, logChanCapacity, hfull] at hstep
      | receive =>
        right
        simp only [CloudWatchLogger.step, hnp, Bool.false_eq_true, if_false,
          CloudWatchLogger.writeToCloudWatch_range] at hstep
        split at hstep
        · rename_i hw
          split at hstep
          · rename_i logMsg rest hq
            simp only [Option.some.injEq] at hstep
            subst hstep
            exact ⟨rfl, hw, by simp [CloudWatchLogger.inFlight, hq]⟩
          · rename_i hq
            simp [hq] at hfull
        · simp at hstep
      | put nowNano err =>
        left
        simp only [CloudWatchLogger.step, hnp, Bool.false_eq_true, if_false,
          CloudWatchLogger.writeToCloudWatch_body] at hstep
        split at hstep
        · simp only [Option.some.injEq] at hstep
          subst hstep
          exact ⟨by simp, rfl⟩
        · simp at hstep
      | closeLogChan =>
        left
        simp only [CloudWatchLogger.step, hnp, Bool.false_eq_true, if_false,
          CloudWatchLogger.Close_closeLogChan, hopen] at hstep
        simp only [Option.some.injEq] at hstep
        subst hstep
        exact ⟨by simp, rfl⟩
      | handshake =>
        left
        simp only [CloudWatchLogger.step, hnp, Bool.false_eq_true, if_false,
          CloudWatchLogger.doneChan_handshake] at hstep
        split at hstep
        · simp only [Option.some.injEq] at hstep
          subst hstep
          exact ⟨by simp, rfl⟩
        · simp at hstep
    · intro cwl1 hstep sev msg args
      simp only [CloudWatchLogger.step, hnp, Bool.false_eq_true, if_false,
        CloudWatchLogger.writeToCloudWatch_range] at hstep
      split at hstep
      · split at hstep
        · rename_i logMsg rest hq
          simp only [Option.some.injEq] at hstep
          subst hstep
          have hrest : rest.length < 100 := by
            simp only [hq, List.length_cons] at hfull
            omega
          rw [step_emit_eq_send Sprintf _ sev msg args rfl]
          simp [CloudWatchLogger.send, hopen, logChanCapacity, hrest, hq, inv.group,
            inv.stream]
        · rename_i hq
          simp [hq] at hfull
      · simp at hstep
  · intro hlen hnp hopen sev msg args
    refine ⟨{ cwl with logChan := cwl.logChan ++ [NewLogMessage g st (Sprintf msg args)] },
      ?_, rfl, rfl, rfl, hnp⟩
    rw [step_emit_eq_send Sprintf cwl sev msg args hnp]
    simp [CloudWatchLogger.send, hopen, logChanCapacity, hlen, inv.group, inv.stream]

set_option maxRecDepth 100000 in
/-- Witness for C9: one hundred `Debug("x")` calls on the fresh sink for ("g", "s") fill the
buffer, and the next call cannot complete. -/
theorem logChan_backpressure_without_loss_witness :
    (freshSink "g" "s").run sprintfVerbS (List.replicate 100 (.emit .Debug "x" []))
      = some fullSink ∧
    fullSink.logChan.length = 100 ∧
    ∀ sev msg args, fullSink.step sprintfVerbS (.emit sev msg args) = none :=
  ⟨by decide, by decide,
    ((logChan_backpressure_without_loss sprintfVerbS none "g" "s"
      (List.replicate 100 (.emit .Debug "x" [])) (freshSink "g" "s") fullSink rfl
      (by decide)).2.1 (by decide) rfl rfl).1⟩

end Crosscut
